import Mathlib

/-!
Verification development for the PlantID label designer's layout engine
(`draw_label_on_canvas`) and sheet packer (`generate_sheet_direct`).

Coordinates are rational numbers (points).  One millimeter is `72 / 25.4`
points, i.e. `360 / 127`, matching reportlab's `mm` constant.  The external
text-measurement capability (`stringWidth`) and the QR encoder's native
bounds (`QrCodeWidget(...).getBounds()`) are treated as pluggable oracles.
A data record is an association list from field name to displayed string;
looking up an absent field yields `none`, modelling the `KeyError` a pandas
row raises, so both entry points return `Option` results.
-/

namespace PlantID

/-- reportlab's `mm` unit: 72 / 25.4 points per millimeter. -/
def mmPt : ℚ := 360 / 127

/-- One data record: field name ↦ displayed string value. -/
abbrev Record := List (String × String)

/-- Native bounds of an encoded QR symbol, as returned by `getBounds()`. -/
structure QrBounds where
  x0 : ℚ
  y0 : ℚ
  x1 : ℚ
  y1 : ℚ
  deriving DecidableEq

/-- External capabilities the layout engine calls through stable interfaces:
`sw text fontName fontSize` is reportlab's `stringWidth`, and `qrBounds value`
gives the QR encoder's native bounds for a value. -/
structure Oracles where
  sw : String → String → ℚ → ℚ
  qrBounds : String → QrBounds

/-- Text anchor of a drawn string: `drawString` (left), `drawRightString`
(right), `drawCentredString` (center). -/
inductive Anchor where
  | left
  | right
  | center
  deriving DecidableEq

/-- Colors used by the engine. -/
inductive Color where
  | black
  | white
  | lightgrey
  deriving DecidableEq

/-- One positioned drawing primitive emitted by the layout engine. -/
inductive DrawCmd where
  /-- `c.rect x y w h` with the given fill/stroke flags. -/
  | rect (x y w h : ℚ) (fill stroke : Bool) (color : Color)
  /-- an anchored text run at absolute position `(x, y)`. -/
  | text (x y : ℚ) (s : String) (font : String) (size : ℚ) (color : Color)
      (anchor : Anchor)
  /-- a text run rotated by `angle` degrees about the pivot `(x, y)`,
  drawn centered on the pivot. -/
  | rotatedText (x y angle : ℚ) (s : String) (font : String) (size : ℚ)
      (color : Color)
  /-- the QR symbol: a drawing of side `size`, uniformly scaled by `scale`,
  rendered with its lower-left corner at `(x, y)`. -/
  | qrSymbol (x y : ℚ) (value : String) (size scale : ℚ)
  /-- the Code128 symbol drawn at `(x, y)` with the given per-module bar
  width and bar height. -/
  | barcode (x y : ℚ) (value : String) (barWidth barHeight : ℚ)
  deriving DecidableEq

/-- All layout parameters of `draw_label_on_canvas` (the keyword arguments
of the Python function).  Physical sizes are in millimeters, font sizes in
points. -/
structure LabelConfig where
  visible_columns : List String
  code_column : Option String
  code_type : String
  highlight_column : Option String
  label_font : String
  label_font_size : ℚ
  label_width : ℚ
  label_height : ℚ
  qr_size : ℚ
  barcode_width : ℚ
  barcode_height : ℚ
  row_height_factor : ℚ
  sidebar_factor : ℚ
  highlight_padding : ℚ
  padding : ℚ
  show_border : Bool
  show_column_names : Bool
  side_highlight : Bool
  qr_left_offset : ℚ
  text_left_offset : ℚ
  deriving DecidableEq

/-- The nested font-variant table of `font_variant` for one family; `none`
when the variant key is absent. -/
def familyTable (family variant : String) : Option String :=
  if family = "Helvetica" then
    if variant = "regular" then some "Helvetica"
    else if variant = "bold" then some "Helvetica-Bold"
    else if variant = "italic" then some "Helvetica-Oblique"
    else if variant = "bold_italic" then some "Helvetica-BoldOblique"
    else none
  else if family = "Times-Roman" then
    if variant = "regular" then some "Times-Roman"
    else if variant = "bold" then some "Times-Bold"
    else if variant = "italic" then some "Times-Italic"
    else if variant = "bold_italic" then some "Times-BoldItalic"
    else none
  else if family = "Courier" then
    if variant = "regular" then some "Courier"
    else if variant = "bold" then some "Courier-Bold"
    else if variant = "italic" then some "Courier-Oblique"
    else if variant = "bold_italic" then some "Courier-BoldOblique"
    else none
  else none

/-- `font_variant(base_font, variant)`: look the family up in the variant
table, falling back to the Helvetica table for unknown families, and fall
back to `base_font` itself for an unknown variant key. -/
def font_variant (base_font variant : String) : String :=
  let fam :=
    if base_font = "Times-Roman" ∨ base_font = "Courier" then base_font
    else "Helvetica"
  (familyTable fam variant).getD base_font

/-- The gap between the rotated name text and the rotated value box in the
side strip: `gap = 1 * mm`. -/
def sideGap : ℚ := 1 * mmPt

/-- Measured width of the side strip's value box along the rotated text
direction: `val_w = stringWidth(value, bold, size) + highlight_padding`. -/
def sideValW (o : Oracles) (cfg : LabelConfig) (value : String) : ℚ :=
  o.sw value (font_variant cfg.label_font "bold") cfg.label_font_size
    + cfg.highlight_padding

/-- Measured width of the side strip's rotated `"name:"` text:
`nam_w = stringWidth(name ++ ":", italic, size)`. -/
def sideNamW (o : Oracles) (cfg : LabelConfig) (hc : String) : ℚ :=
  o.sw (hc ++ ":") (font_variant cfg.label_font "italic") cfg.label_font_size

/-- `total_h = nam_w + gap + val_w`: vertical extent of the rotated side
strip content. -/
def sideSpan (o : Oracles) (cfg : LabelConfig) (hc value : String) : ℚ :=
  sideNamW o cfg hc + sideGap + sideValW o cfg value

/-- `sidebar_bottom = y + (lh_pt - total_h) / 2`: bottom of the side strip
content, placed so the span is centered vertically in the label. -/
def sideBottom (o : Oracles) (cfg : LabelConfig) (hc value : String)
    (y lh_pt : ℚ) : ℚ :=
  y + (lh_pt - sideSpan o cfg hc value) / 2

/-- The three draw commands of the side highlight strip: the rotated
italic `"name:"` text, the filled value box, and the rotated bold white
value text, exactly as `draw_label_on_canvas` draws them. -/
def sidebarCmds (o : Oracles) (cfg : LabelConfig) (hc value : String)
    (x y lw_pt lh_pt : ℚ) : List DrawCmd :=
  let side_col_width := lw_pt * cfg.sidebar_factor
  let font_size := cfg.label_font_size
  let val_w := sideValW o cfg value
  let nam_w := sideNamW o cfg hc
  let sidebar_bottom := sideBottom o cfg hc value y lh_pt
  let val_rect_y := sidebar_bottom + nam_w + sideGap
  [DrawCmd.rotatedText (x + side_col_width / 2) (sidebar_bottom + nam_w / 2)
      90 (hc ++ ":") (font_variant cfg.label_font "italic") font_size
      Color.black,
   DrawCmd.rect x val_rect_y side_col_width val_w true false Color.black,
   DrawCmd.rotatedText (x + side_col_width / 2) (val_rect_y + val_w / 2)
      90 value (font_variant cfg.label_font "bold") font_size Color.white]

/-- Step 2 of `draw_label_on_canvas`: the side strip.  Returns the strip
width consumed (`side_col_width`, 0 when the strip is off) together with
its commands; `none` models the `KeyError` raised when `highlight_column`
is absent from the record.  The guard mirrors Python's
`if side_highlight and highlight_column:` (`None` and `""` are falsy). -/
def sidebarSection (o : Oracles) (cfg : LabelConfig) (df_row : Record)
    (x y lw_pt lh_pt : ℚ) : Option (ℚ × List DrawCmd) :=
  match cfg.highlight_column with
  | some hc =>
    if cfg.side_highlight = true ∧ hc ≠ "" then
      match df_row.lookup hc with
      | some value =>
        some (lw_pt * cfg.sidebar_factor, sidebarCmds o cfg hc value x y lw_pt lh_pt)
      | none => none
    else some (0, [])
  | none => some (0, [])

/-- Step 3 of `draw_label_on_canvas`: the QR / barcode symbol.  Returns
the resulting text start `text_x` and the symbol commands; `none` models
the `KeyError` raised when `code_column` is absent from the record. -/
def codeSection (o : Oracles) (cfg : LabelConfig) (df_row : Record)
    (x y lh_pt side_col_width pad_pt : ℚ) : Option (ℚ × List DrawCmd) :=
  let code_x := x + side_col_width + cfg.qr_left_offset * mmPt
  let text_x := x + side_col_width + pad_pt
  match cfg.code_column with
  | some cc =>
    if cfg.code_type ≠ "None" then
      match df_row.lookup cc with
      | some val =>
        if cfg.code_type = "QR" then
          let qr_pt := cfg.qr_size * mmPt
          let code_y := y + (lh_pt - qr_pt) / 2
          let b := o.qrBounds val
          let scale := qr_pt / max (b.x1 - b.x0) (b.y1 - b.y0)
          some (code_x + qr_pt + 2 * mmPt,
            [DrawCmd.qrSymbol code_x code_y val qr_pt scale])
        else if cfg.code_type = "Barcode" then
          let bw_pt := cfg.barcode_width * mmPt
          let bh_pt := cfg.barcode_height * mmPt
          let code_y := y + (lh_pt - bh_pt) / 2
          let barWidth := bw_pt / ((max (val.length * 11) 1 : ℕ) : ℚ)
          some (code_x + bw_pt + 2 * mmPt,
            [DrawCmd.barcode code_x code_y val barWidth bh_pt])
        else some (text_x, [])
      | none => none
    else some (text_x, [])
  | none => some (text_x, [])

/-- The commands of one text row (loop body of step 4): an optional
right-aligned italic `"name:"` label at 35% of the available width, then
the value — white on a black auto-fit box when this column is the
highlight column, plain black text otherwise. -/
def rowCommands (o : Oracles) (cfg : LabelConfig) (val col_name : String)
    (text_x avail_w y_pos : ℚ) : List DrawCmd :=
  let nameCmds :=
    if cfg.show_column_names then
      [DrawCmd.text (text_x + avail_w * (35 / 100)) y_pos (col_name ++ ":")
          (font_variant cfg.label_font "italic") cfg.label_font_size
          Color.black Anchor.right]
    else []
  let valCmds :=
    if some col_name = cfg.highlight_column then
      let v_w := o.sw val (font_variant cfg.label_font "bold")
          cfg.label_font_size + cfg.highlight_padding
      let highlight_height := max 6 (cfg.label_font_size + 2)
      let highlight_y := y_pos - cfg.label_font_size * (3 / 10)
      [DrawCmd.rect (text_x + avail_w * (2 / 5) - 2) highlight_y v_w
          highlight_height true true Color.black,
       DrawCmd.text (text_x + avail_w * (2 / 5)) y_pos val
          (font_variant cfg.label_font "bold") cfg.label_font_size
          Color.white Anchor.left]
    else
      [DrawCmd.text (text_x + avail_w * (2 / 5)) y_pos val
          (font_variant cfg.label_font "regular") cfg.label_font_size
          Color.black Anchor.left]
  nameCmds ++ valCmds

/-- Step 4 of `draw_label_on_canvas`: the `for idx, col_name in
enumerate(visible_columns)` loop, carrying the running index.  `none`
models the `KeyError` raised at the first visible column absent from the
record. -/
def textRows (o : Oracles) (cfg : LabelConfig) (df_row : Record)
    (text_x avail_w text_y_start row_height : ℚ) :
    ℕ → List String → Option (List DrawCmd)
  | _, [] => some []
  | idx, col_name :: cols =>
    match df_row.lookup col_name with
    | none => none
    | some val =>
      match textRows o cfg df_row text_x avail_w text_y_start row_height
          (idx + 1) cols with
      | none => none
      | some rest =>
        some (rowCommands o cfg val col_name text_x avail_w
            (text_y_start - (idx : ℚ) * row_height) ++ rest)

/-- `row_count = max(len(visible_columns), 1)`. -/
def rowCountOf (cfg : LabelConfig) : ℕ :=
  max cfg.visible_columns.length 1

/-- `row_height = ((lh_pt - 2 * pad_pt) / row_count) * row_height_factor`. -/
def rowHeightOf (cfg : LabelConfig) : ℚ :=
  ((cfg.label_height * mmPt - 2 * (cfg.padding * mmPt)) / (rowCountOf cfg : ℚ))
    * cfg.row_height_factor

/-- `text_y_start = y + lh_pt - pad_pt - row_height * 0.1`. -/
def textYStartOf (cfg : LabelConfig) (y : ℚ) : ℚ :=
  y + cfg.label_height * mmPt - cfg.padding * mmPt - rowHeightOf cfg * (1 / 10)

/-- Step 1 of `draw_label_on_canvas`: the optional outer border, an
unfilled light-grey stroked rectangle over the full label bounds. -/
def borderCmds (cfg : LabelConfig) (x y : ℚ) : List DrawCmd :=
  if cfg.show_border then
    [DrawCmd.rect x y (cfg.label_width * mmPt) (cfg.label_height * mmPt)
        false true Color.lightgrey]
  else []

/-- The layout engine `draw_label_on_canvas(c, df_row, x, y, ...)`:
border, side strip, code symbol, then text rows, in drawing order.
Returns `none` when a field referenced by the config is absent from the
record (Python raises `KeyError`). -/
def draw_label_on_canvas (o : Oracles) (df_row : Record) (x y : ℚ)
    (cfg : LabelConfig) : Option (List DrawCmd) :=
  let lw_pt := cfg.label_width * mmPt
  let lh_pt := cfg.label_height * mmPt
  let pad_pt := cfg.padding * mmPt
  match sidebarSection o cfg df_row x y lw_pt lh_pt with
  | none => none
  | some (side_col_width, sideCmds) =>
    match codeSection o cfg df_row x y lh_pt side_col_width pad_pt with
    | none => none
    | some (tx, codeCmds) =>
      let text_x := tx + cfg.text_left_offset * mmPt
      let row_height := rowHeightOf cfg
      let text_y_start := textYStartOf cfg y
      let avail_w := lw_pt - (text_x - x) - pad_pt
      match textRows o cfg df_row text_x avail_w text_y_start row_height 0
          cfg.visible_columns with
      | none => none
      | some rows => some (borderCmds cfg x y ++ sideCmds ++ codeCmds ++ rows)

/-- The packer's cursor: current page index (number of `showPage` calls so
far) and the `(x, y)` origin for the next label. -/
structure PackState where
  page : ℕ
  x : ℚ
  y : ℚ
  deriving DecidableEq

/-- One rendered label instance: page index, origin on the page, and the
label's draw commands. -/
structure Placement where
  page : ℕ
  x : ℚ
  y : ℚ
  cmds : List DrawCmd
  deriving DecidableEq

/-- The page-size logic at the top of `generate_sheet_direct`: returns
`(page_width, page_height, margin)`.  A4 is `210 × 297` mm, Letter is
`612 × 792` points, `LabelPrinter` is the exact label size with no margin,
and any other value falls back to A4 with a 5 mm margin. -/
def pageDims (page_format : String) (label_width label_height : ℚ) :
    ℚ × ℚ × ℚ :=
  if page_format = "A4" then (210 * mmPt, 297 * mmPt, 5 * mmPt)
  else if page_format = "Letter" then (612, 792, 5 * mmPt)
  else if page_format = "LabelPrinter" then
    (label_width * mmPt, label_height * mmPt, 0)
  else (210 * mmPt, 297 * mmPt, 5 * mmPt)

/-- The cursor update performed after every placement: advance `x`; on row
overflow (`x + labelWidth > pageWidth`, strict) wrap to the next row; if
the row drop leaves `y < margin`, emit a page break and reset to the top
corner. -/
def packAdvance (lw_pt lh_pt page_width page_height margin : ℚ)
    (s : PackState) : PackState :=
  let x := s.x + lw_pt + margin
  if x + lw_pt > page_width then
    let y := s.y - (lh_pt + margin)
    if y < margin then
      { page := s.page + 1, x := margin, y := page_height - lh_pt - margin }
    else { page := s.page, x := margin, y := y }
  else { page := s.page, x := x, y := s.y }

/-- The inner `for _ in range(repeat_count)` loop of
`generate_sheet_direct`: place `n` copies of one record, threading the
cursor. -/
def packCopies (o : Oracles) (cfg : LabelConfig)
    (lw_pt lh_pt page_width page_height margin : ℚ) (df_row : Record) :
    ℕ → PackState → Option (List Placement × PackState)
  | 0, s => some ([], s)
  | n + 1, s =>
    match draw_label_on_canvas o df_row s.x s.y cfg with
    | none => none
    | some cmds =>
      match packCopies o cfg lw_pt lh_pt page_width page_height margin df_row
          n (packAdvance lw_pt lh_pt page_width page_height margin s) with
      | none => none
      | some (ps, s') =>
        some ({ page := s.page, x := s.x, y := s.y, cmds := cmds } :: ps, s')

/-- The outer `for _, row in df.iterrows()` loop of
`generate_sheet_direct`. -/
def packRecords (o : Oracles) (cfg : LabelConfig)
    (lw_pt lh_pt page_width page_height margin : ℚ) (repeat_count : ℕ) :
    List Record → PackState → Option (List Placement × PackState)
  | [], s => some ([], s)
  | r :: rs, s =>
    match packCopies o cfg lw_pt lh_pt page_width page_height margin r
        repeat_count s with
    | none => none
    | some (ps, s') =>
      match packRecords o cfg lw_pt lh_pt page_width page_height margin
          repeat_count rs s' with
      | none => none
      | some (qs, s'') => some (ps ++ qs, s'')

/-- `generate_sheet_direct(df, ..., page_format, repeat_count)`: choose
page dimensions, start the cursor at `(margin, page_height - lh - margin)`
on page 0, and tile the labels.  The Python function does not forward a
`padding` argument to `draw_label_on_canvas`, so drawing always uses the
default `padding = 4`. -/
def generate_sheet_direct (o : Oracles) (df : List Record)
    (cfg : LabelConfig) (page_format : String) (repeat_count : ℕ) :
    Option (List Placement) :=
  let dims := pageDims page_format cfg.label_width cfg.label_height
  let page_width := dims.1
  let page_height := dims.2.1
  let margin := dims.2.2
  let lw_pt := cfg.label_width * mmPt
  let lh_pt := cfg.label_height * mmPt
  let s0 : PackState := { page := 0, x := margin, y := page_height - lh_pt - margin }
  match packRecords o { cfg with padding := 4 } lw_pt lh_pt page_width
      page_height margin repeat_count df s0 with
  | none => none
  | some (ps, _) => some ps

/-! ## Observation predicates over the emitted commands -/

/-- A text-value command: the value of a row, drawn with `drawString`
(left anchor).  Only the value branch of the text-row loop emits these. -/
def isValueText : DrawCmd → Bool
  | DrawCmd.text _ _ _ _ _ _ Anchor.left => true
  | _ => false

/-- A column-name label command: drawn with `drawRightString`.  Only the
`show_column_names` branch of the text-row loop emits these. -/
def isNameText : DrawCmd → Bool
  | DrawCmd.text _ _ _ _ _ _ Anchor.right => true
  | _ => false

/-- The inline highlight rectangle: the only rect the engine draws with
both fill and stroke (reportlab's `rect(..., fill=1)` keeps the default
`stroke=1`). -/
def isHighlightRect : DrawCmd → Bool
  | DrawCmd.rect _ _ _ _ true true _ => true
  | _ => false

/-- A rotated text run; only the side strip emits these. -/
def isRotatedText : DrawCmd → Bool
  | DrawCmd.rotatedText .. => true
  | _ => false

/-- The side strip's value box: the only rect drawn filled and unstroked
(`rect(..., fill=1, stroke=0)`). -/
def isSideBoxRect : DrawCmd → Bool
  | DrawCmd.rect _ _ _ _ true false _ => true
  | _ => false

/-- Any command belonging to the side highlight strip. -/
def isSidebarCmd (c : DrawCmd) : Bool := isRotatedText c || isSideBoxRect c

/-- A machine-readable code symbol (QR or Code128). -/
def isCodeCmd : DrawCmd → Bool
  | DrawCmd.qrSymbol .. => true
  | DrawCmd.barcode .. => true
  | _ => false

/-- The y-coordinate a command is drawn at. -/
def yOf : DrawCmd → ℚ
  | DrawCmd.rect _ y _ _ _ _ _ => y
  | DrawCmd.text _ y _ _ _ _ _ => y
  | DrawCmd.rotatedText _ y _ _ _ _ _ => y
  | DrawCmd.qrSymbol _ y _ _ _ => y
  | DrawCmd.barcode _ y _ _ _ => y

/-- The width of a rectangle command (0 for non-rectangles). -/
def wOf : DrawCmd → ℚ
  | DrawCmd.rect _ _ w _ _ _ _ => w
  | _ => 0

/-- The height of a rectangle command (0 for non-rectangles). -/
def hOf : DrawCmd → ℚ
  | DrawCmd.rect _ _ _ h _ _ _ => h
  | _ => 0

/-- Whether the record supplies the field the side strip reads (vacuously
true when the strip is off). -/
def sidebarReadyB (cfg : LabelConfig) (row : Record) : Bool :=
  match cfg.highlight_column with
  | some hc =>
    if cfg.side_highlight = true ∧ hc ≠ "" then (row.lookup hc).isSome
    else true
  | none => true

/-- Whether the record supplies the field the code symbol encodes
(vacuously true when no code is drawn). -/
def codeReadyB (cfg : LabelConfig) (row : Record) : Bool :=
  match cfg.code_column with
  | some cc => if cfg.code_type ≠ "None" then (row.lookup cc).isSome else true
  | none => true

/-- Whether the record supplies every visible column. -/
def rowsReadyB (cfg : LabelConfig) (row : Record) : Bool :=
  cfg.visible_columns.all fun c => (row.lookup c).isSome

/-- Whether the record supplies every field the config references: the
exact condition under which `draw_label_on_canvas` performs no failing
lookup. -/
def fieldsReadyB (cfg : LabelConfig) (row : Record) : Bool :=
  sidebarReadyB cfg row && codeReadyB cfg row && rowsReadyB cfg row

/-- The width the side strip consumes: `lw_pt * sidebar_factor` when the
strip is on, 0 otherwise. -/
def sideWidthOf (cfg : LabelConfig) : ℚ :=
  match cfg.highlight_column with
  | some hc =>
    if cfg.side_highlight = true ∧ hc ≠ "" then
      (cfg.label_width * mmPt) * cfg.sidebar_factor
    else 0
  | none => 0

/-- The `(pageIndex, x, y)` triple of a cursor state. -/
def statePos (s : PackState) : ℕ × ℚ × ℚ := (s.page, s.x, s.y)

/-- The `(pageIndex, x, y)` triple of a placement. -/
def placePos (p : Placement) : ℕ × ℚ × ℚ := (p.page, p.x, p.y)

/-- Modelled from the spec: the cursor-advance rule of §4.2 as the spec
words it — after a placement, advance `x` by `labelWidth + margin`; if
`x + labelWidth > pageWidth` (about to overflow the row) reset `x = margin`
and drop one row (`y -= labelHeight + margin`); if `y < margin` then
(row drop overflowed the page) record a page break and reset the cursor to
`(margin, pageHeight - labelHeight - margin)`.  Compared against the
code's update `packAdvance` in the refinement theorem for the packing
claims. -/
def advanceSpec (labelW labelH pageW pageH margin : ℚ) (s : PackState) :
    PackState :=
  let x := s.x + labelW + margin
  if x + labelW > pageW then
    let y := s.y - (labelH + margin)
    if y < margin then
      { page := s.page + 1, x := margin, y := pageH - labelH - margin }
    else { page := s.page, x := margin, y := y }
  else { page := s.page, x := x, y := s.y }

/-- The spec's advance rule and the code's cursor update coincide. -/
theorem advanceSpec_eq_packAdvance : advanceSpec = packAdvance := rfl

/-! ## Success characterization -/

/-- The side strip step succeeds exactly when the field it reads is
present. -/
theorem sidebarSection_isSome (o : Oracles) (cfg : LabelConfig)
    (row : Record) (x y lw_pt lh_pt : ℚ) :
    (sidebarSection o cfg row x y lw_pt lh_pt).isSome = sidebarReadyB cfg row := by
  unfold sidebarSection sidebarReadyB
  cases cfg.highlight_column with
  | none => rfl
  | some hc =>
    by_cases h : cfg.side_highlight = true ∧ hc ≠ ""
    · simp only [if_pos h]
      cases row.lookup hc <;> rfl
    · simp only [if_neg h]
      rfl

/-- The code step succeeds exactly when the field it encodes is present. -/
theorem codeSection_isSome (o : Oracles) (cfg : LabelConfig) (row : Record)
    (x y lh_pt side_col_width pad_pt : ℚ) :
    (codeSection o cfg row x y lh_pt side_col_width pad_pt).isSome =
      codeReadyB cfg row := by
  unfold codeSection codeReadyB
  cases cfg.code_column with
  | none => rfl
  | some cc =>
    by_cases h : cfg.code_type ≠ "None"
    · simp only [if_pos h]
      cases row.lookup cc with
      | none => rfl
      | some v =>
        simp only [Option.isSome_some]
        split
        · rfl
        · split <;> rfl
    · simp only [if_neg h]
      rfl

/-- The text-row loop succeeds exactly when every visible column is
present. -/
theorem textRows_isSome (o : Oracles) (cfg : LabelConfig) (row : Record)
    (text_x avail_w text_y_start row_height : ℚ) :
    ∀ (cols : List String) (idx : ℕ),
      (textRows o cfg row text_x avail_w text_y_start row_height idx cols).isSome =
        cols.all fun c => (row.lookup c).isSome := by
  intro cols
  induction cols with
  | nil => intro idx; rfl
  | cons c cs ih =>
    intro idx
    simp only [textRows, List.all_cons]
    cases row.lookup c with
    | none => rfl
    | some v =>
      simp only [Option.isSome_some, Bool.true_and]
      cases h : textRows o cfg row text_x avail_w text_y_start row_height
          (idx + 1) cs with
      | none =>
        have := ih (idx + 1)
        rw [h] at this
        simpa using this.symm
      | some rest =>
        have := ih (idx + 1)
        rw [h] at this
        simpa using this.symm

/-- `draw_label_on_canvas` succeeds exactly when every field referenced by
the config is present in the record; a missing referenced field makes the
whole layout call fail (Python's `KeyError`), it is never replaced by an
empty string. -/
theorem draw_isSome (o : Oracles) (row : Record) (x y : ℚ)
    (cfg : LabelConfig) :
    (draw_label_on_canvas o row x y cfg).isSome = fieldsReadyB cfg row := by
  simp only [draw_label_on_canvas]
  split
  next hs =>
    have h1 := congrArg Option.isSome hs
    rw [sidebarSection_isSome] at h1
    simp only [Option.isSome_none] at h1
    simp [fieldsReadyB, h1]
  next w sc hs =>
    have h1 := congrArg Option.isSome hs
    rw [sidebarSection_isSome] at h1
    simp only [Option.isSome_some] at h1
    split
    next hc =>
      have h2 := congrArg Option.isSome hc
      rw [codeSection_isSome] at h2
      simp only [Option.isSome_none] at h2
      simp [fieldsReadyB, h2]
    next t cl hc =>
      have h2 := congrArg Option.isSome hc
      rw [codeSection_isSome] at h2
      simp only [Option.isSome_some] at h2
      split
      next ht =>
        have h3 := congrArg Option.isSome ht
        rw [textRows_isSome] at h3
        simp only [Option.isSome_none] at h3
        simp [fieldsReadyB, rowsReadyB, h3]
      next rows ht =>
        have h3 := congrArg Option.isSome ht
        rw [textRows_isSome] at h3
        simp only [Option.isSome_some] at h3
        simp [fieldsReadyB, rowsReadyB, h1, h2, h3]

/-- When the three sections succeed, the layout output is their
concatenation after the border, with the text rows laid out from
`text_x = tx + text_left_offset * mm`. -/
theorem draw_eq_sections (o : Oracles) (row : Record) (x y : ℚ)
    (cfg : LabelConfig) (w t : ℚ) (sc cl rows : List DrawCmd)
    (hs : sidebarSection o cfg row x y (cfg.label_width * mmPt)
        (cfg.label_height * mmPt) = some (w, sc))
    (hc : codeSection o cfg row x y (cfg.label_height * mmPt) w
        (cfg.padding * mmPt) = some (t, cl))
    (ht : textRows o cfg row (t + cfg.text_left_offset * mmPt)
        (cfg.label_width * mmPt - (t + cfg.text_left_offset * mmPt - x) -
          cfg.padding * mmPt)
        (textYStartOf cfg y) (rowHeightOf cfg) 0 cfg.visible_columns =
        some rows) :
    draw_label_on_canvas o row x y cfg =
      some (borderCmds cfg x y ++ sc ++ cl ++ rows) := by
  simp only [draw_label_on_canvas, hs, hc, ht]

/-- A successful side strip step yields some pair. -/
theorem sidebarSection_exists (o : Oracles) (cfg : LabelConfig)
    (row : Record) (x y lw_pt lh_pt : ℚ)
    (h : sidebarReadyB cfg row = true) :
    ∃ w sc, sidebarSection o cfg row x y lw_pt lh_pt = some (w, sc) := by
  have := sidebarSection_isSome o cfg row x y lw_pt lh_pt
  rw [h] at this
  rcases Option.isSome_iff_exists.mp this with ⟨⟨w, sc⟩, hq⟩
  exact ⟨w, sc, hq⟩

/-- A successful code step yields some pair. -/
theorem codeSection_exists (o : Oracles) (cfg : LabelConfig) (row : Record)
    (x y lh_pt side_col_width pad_pt : ℚ)
    (h : codeReadyB cfg row = true) :
    ∃ t cl, codeSection o cfg row x y lh_pt side_col_width pad_pt =
      some (t, cl) := by
  have := codeSection_isSome o cfg row x y lh_pt side_col_width pad_pt
  rw [h] at this
  rcases Option.isSome_iff_exists.mp this with ⟨⟨t, cl⟩, hq⟩
  exact ⟨t, cl, hq⟩

/-- A successful text-row loop yields some command list. -/
theorem textRows_exists (o : Oracles) (cfg : LabelConfig) (row : Record)
    (text_x avail_w text_y_start row_height : ℚ)
    (h : rowsReadyB cfg row = true) :
    ∃ rows, textRows o cfg row text_x avail_w text_y_start row_height 0
      cfg.visible_columns = some rows := by
  have := textRows_isSome o cfg row text_x avail_w text_y_start row_height
    cfg.visible_columns 0
  rw [rowsReadyB] at h
  rw [h] at this
  exact Option.isSome_iff_exists.mp this

/-! ## Shape of each section's command list -/

/-- A successful side strip step consumes `sideWidthOf cfg` of width. -/
theorem sidebarSection_width (o : Oracles) (cfg : LabelConfig)
    (row : Record) (x y lw_pt lh_pt w : ℚ) (sc : List DrawCmd)
    (h : sidebarSection o cfg row x y lw_pt lh_pt = some (w, sc))
    (hlw : lw_pt = cfg.label_width * mmPt) :
    w = sideWidthOf cfg := by
  unfold sidebarSection at h
  unfold sideWidthOf
  cases hh : cfg.highlight_column with
  | none =>
    rw [hh] at h
    simp only [Option.some.injEq, Prod.mk.injEq] at h
    exact h.1.symm
  | some hc =>
    rw [hh] at h
    dsimp only at h ⊢
    by_cases hg : cfg.side_highlight = true ∧ hc ≠ ""
    · rw [if_pos hg] at h
      rw [if_pos hg]
      cases hv : row.lookup hc with
      | none => rw [hv] at h; exact absurd h (by simp)
      | some value =>
        rw [hv] at h
        simp only [Option.some.injEq, Prod.mk.injEq] at h
        rw [← h.1, hlw]
    · rw [if_neg hg] at h
      rw [if_neg hg]
      simp only [Option.some.injEq, Prod.mk.injEq] at h
      exact h.1.symm

/-- A successful side strip step emits either nothing or exactly the three
strip commands. -/
theorem sidebarSection_eq (o : Oracles) (cfg : LabelConfig) (row : Record)
    (x y lw_pt lh_pt w : ℚ) (sc : List DrawCmd)
    (h : sidebarSection o cfg row x y lw_pt lh_pt = some (w, sc)) :
    sc = [] ∨
      ∃ hc value, cfg.highlight_column = some hc ∧
        cfg.side_highlight = true ∧ hc ≠ "" ∧ row.lookup hc = some value ∧
        w = lw_pt * cfg.sidebar_factor ∧
        sc = sidebarCmds o cfg hc value x y lw_pt lh_pt := by
  unfold sidebarSection at h
  cases hh : cfg.highlight_column with
  | none =>
    rw [hh] at h
    simp only [Option.some.injEq, Prod.mk.injEq] at h
    exact Or.inl h.2.symm
  | some hc =>
    rw [hh] at h
    dsimp only at h
    by_cases hg : cfg.side_highlight = true ∧ hc ≠ ""
    · rw [if_pos hg] at h
      cases hv : row.lookup hc with
      | none => rw [hv] at h; exact absurd h (by simp)
      | some value =>
        rw [hv] at h
        simp only [Option.some.injEq, Prod.mk.injEq] at h
        exact Or.inr ⟨hc, value, rfl, hg.1, hg.2, hv, h.1.symm, h.2.symm⟩
    · rw [if_neg hg] at h
      simp only [Option.some.injEq, Prod.mk.injEq] at h
      exact Or.inl h.2.symm

/-- A successful code step emits nothing, one QR symbol, or one barcode. -/
theorem codeSection_eq (o : Oracles) (cfg : LabelConfig) (row : Record)
    (x y lh_pt side_col_width pad_pt t : ℚ) (cl : List DrawCmd)
    (h : codeSection o cfg row x y lh_pt side_col_width pad_pt =
      some (t, cl)) :
    cl = [] ∨
      (∃ cx cy v s k, cl = [DrawCmd.qrSymbol cx cy v s k]) ∨
      (∃ cx cy v bw bh, cl = [DrawCmd.barcode cx cy v bw bh]) := by
  unfold codeSection at h
  cases hh : cfg.code_column with
  | none =>
    rw [hh] at h
    simp only [Option.some.injEq, Prod.mk.injEq] at h
    exact Or.inl h.2.symm
  | some cc =>
    rw [hh] at h
    dsimp only at h
    by_cases hg : cfg.code_type ≠ "None"
    · rw [if_pos hg] at h
      cases hv : row.lookup cc with
      | none => rw [hv] at h; exact absurd h (by simp)
      | some val =>
        rw [hv] at h
        dsimp only at h
        by_cases hq : cfg.code_type = "QR"
        · rw [if_pos hq] at h
          simp only [Option.some.injEq, Prod.mk.injEq] at h
          exact Or.inr (Or.inl ⟨_, _, _, _, _, h.2.symm⟩)
        · rw [if_neg hq] at h
          by_cases hb : cfg.code_type = "Barcode"
          · rw [if_pos hb] at h
            simp only [Option.some.injEq, Prod.mk.injEq] at h
            exact Or.inr (Or.inr ⟨_, _, _, _, _, h.2.symm⟩)
          · rw [if_neg hb] at h
            simp only [Option.some.injEq, Prod.mk.injEq] at h
            exact Or.inl h.2.symm
    · rw [if_neg hg] at h
      simp only [Option.some.injEq, Prod.mk.injEq] at h
      exact Or.inl h.2.symm

/-! ## Filters over each section's commands -/

theorem sidebarCmds_filter_value (o : Oracles) (cfg : LabelConfig)
    (hc value : String) (x y lw_pt lh_pt : ℚ) :
    (sidebarCmds o cfg hc value x y lw_pt lh_pt).filter isValueText = [] := rfl

theorem sidebarCmds_filter_name (o : Oracles) (cfg : LabelConfig)
    (hc value : String) (x y lw_pt lh_pt : ℚ) :
    (sidebarCmds o cfg hc value x y lw_pt lh_pt).filter isNameText = [] := rfl

theorem sidebarCmds_filter_hl (o : Oracles) (cfg : LabelConfig)
    (hc value : String) (x y lw_pt lh_pt : ℚ) :
    (sidebarCmds o cfg hc value x y lw_pt lh_pt).filter isHighlightRect =
      [] := rfl

theorem sidebarCmds_filter_code (o : Oracles) (cfg : LabelConfig)
    (hc value : String) (x y lw_pt lh_pt : ℚ) :
    (sidebarCmds o cfg hc value x y lw_pt lh_pt).filter isCodeCmd = [] := rfl

theorem sidebarCmds_filter_side (o : Oracles) (cfg : LabelConfig)
    (hc value : String) (x y lw_pt lh_pt : ℚ) :
    (sidebarCmds o cfg hc value x y lw_pt lh_pt).filter isSidebarCmd =
      sidebarCmds o cfg hc value x y lw_pt lh_pt := rfl

theorem borderCmds_filter_value (cfg : LabelConfig) (x y : ℚ) :
    (borderCmds cfg x y).filter isValueText = [] := by
  unfold borderCmds; cases cfg.show_border <;> rfl

theorem borderCmds_filter_name (cfg : LabelConfig) (x y : ℚ) :
    (borderCmds cfg x y).filter isNameText = [] := by
  unfold borderCmds; cases cfg.show_border <;> rfl

theorem borderCmds_filter_hl (cfg : LabelConfig) (x y : ℚ) :
    (borderCmds cfg x y).filter isHighlightRect = [] := by
  unfold borderCmds; cases cfg.show_border <;> rfl

theorem borderCmds_filter_code (cfg : LabelConfig) (x y : ℚ) :
    (borderCmds cfg x y).filter isCodeCmd = [] := by
  unfold borderCmds; cases cfg.show_border <;> rfl

theorem borderCmds_filter_side (cfg : LabelConfig) (x y : ℚ) :
    (borderCmds cfg x y).filter isSidebarCmd = [] := by
  unfold borderCmds; cases cfg.show_border <;> rfl

theorem sidebarSection_filter_value (o : Oracles) (cfg : LabelConfig)
    (row : Record) (x y lw_pt lh_pt w : ℚ) (sc : List DrawCmd)
    (h : sidebarSection o cfg row x y lw_pt lh_pt = some (w, sc)) :
    sc.filter isValueText = [] := by
  rcases sidebarSection_eq o cfg row x y lw_pt lh_pt w sc h with
    rfl | ⟨hc, value, _, _, _, _, _, rfl⟩
  · rfl
  · exact sidebarCmds_filter_value o cfg hc value x y lw_pt lh_pt

theorem sidebarSection_filter_name (o : Oracles) (cfg : LabelConfig)
    (row : Record) (x y lw_pt lh_pt w : ℚ) (sc : List DrawCmd)
    (h : sidebarSection o cfg row x y lw_pt lh_pt = some (w, sc)) :
    sc.filter isNameText = [] := by
  rcases sidebarSection_eq o cfg row x y lw_pt lh_pt w sc h with
    rfl | ⟨hc, value, _, _, _, _, _, rfl⟩
  · rfl
  · exact sidebarCmds_filter_name o cfg hc value x y lw_pt lh_pt

theorem sidebarSection_filter_hl (o : Oracles) (cfg : LabelConfig)
    (row : Record) (x y lw_pt lh_pt w : ℚ) (sc : List DrawCmd)
    (h : sidebarSection o cfg row x y lw_pt lh_pt = some (w, sc)) :
    sc.filter isHighlightRect = [] := by
  rcases sidebarSection_eq o cfg row x y lw_pt lh_pt w sc h with
    rfl | ⟨hc, value, _, _, _, _, _, rfl⟩
  · rfl
  · exact sidebarCmds_filter_hl o cfg hc value x y lw_pt lh_pt

theorem sidebarSection_filter_code (o : Oracles) (cfg : LabelConfig)
    (row : Record) (x y lw_pt lh_pt w : ℚ) (sc : List DrawCmd)
    (h : sidebarSection o cfg row x y lw_pt lh_pt = some (w, sc)) :
    sc.filter isCodeCmd = [] := by
  rcases sidebarSection_eq o cfg row x y lw_pt lh_pt w sc h with
    rfl | ⟨hc, value, _, _, _, _, _, rfl⟩
  · rfl
  · exact sidebarCmds_filter_code o cfg hc value x y lw_pt lh_pt

theorem codeSection_filter_value (o : Oracles) (cfg : LabelConfig)
    (row : Record) (x y lh_pt side_col_width pad_pt t : ℚ)
    (cl : List DrawCmd)
    (h : codeSection o cfg row x y lh_pt side_col_width pad_pt =
      some (t, cl)) :
    cl.filter isValueText = [] := by
  rcases codeSection_eq o cfg row x y lh_pt side_col_width pad_pt t cl h with
    rfl | ⟨cx, cy, v, s, k, rfl⟩ | ⟨cx, cy, v, bw, bh, rfl⟩ <;> rfl

theorem codeSection_filter_name (o : Oracles) (cfg : LabelConfig)
    (row : Record) (x y lh_pt side_col_width pad_pt t : ℚ)
    (cl : List DrawCmd)
    (h : codeSection o cfg row x y lh_pt side_col_width pad_pt =
      some (t, cl)) :
    cl.filter isNameText = [] := by
  rcases codeSection_eq o cfg row x y lh_pt side_col_width pad_pt t cl h with
    rfl | ⟨cx, cy, v, s, k, rfl⟩ | ⟨cx, cy, v, bw, bh, rfl⟩ <;> rfl

theorem codeSection_filter_hl (o : Oracles) (cfg : LabelConfig)
    (row : Record) (x y lh_pt side_col_width pad_pt t : ℚ)
    (cl : List DrawCmd)
    (h : codeSection o cfg row x y lh_pt side_col_width pad_pt =
      some (t, cl)) :
    cl.filter isHighlightRect = [] := by
  rcases codeSection_eq o cfg row x y lh_pt side_col_width pad_pt t cl h with
    rfl | ⟨cx, cy, v, s, k, rfl⟩ | ⟨cx, cy, v, bw, bh, rfl⟩ <;> rfl

theorem codeSection_filter_side (o : Oracles) (cfg : LabelConfig)
    (row : Record) (x y lh_pt side_col_width pad_pt t : ℚ)
    (cl : List DrawCmd)
    (h : codeSection o cfg row x y lh_pt side_col_width pad_pt =
      some (t, cl)) :
    cl.filter isSidebarCmd = [] := by
  rcases codeSection_eq o cfg row x y lh_pt side_col_width pad_pt t cl h with
    rfl | ⟨cx, cy, v, s, k, rfl⟩ | ⟨cx, cy, v, bw, bh, rfl⟩ <;> rfl

/-- Each text row contributes exactly one value command, at its row
baseline. -/
theorem rowCommands_filter_value (o : Oracles) (cfg : LabelConfig)
    (val col_name : String) (text_x avail_w y_pos : ℚ) :
    ((rowCommands o cfg val col_name text_x avail_w y_pos).filter
      isValueText).map yOf = [y_pos] := by
  unfold rowCommands
  by_cases h1 : cfg.show_column_names <;>
    by_cases h2 : some col_name = cfg.highlight_column <;>
      simp [h1, h2, isValueText, yOf]

/-- Each text row contributes one name-label command at its baseline when
`show_column_names` is on, none otherwise. -/
theorem rowCommands_filter_name (o : Oracles) (cfg : LabelConfig)
    (val col_name : String) (text_x avail_w y_pos : ℚ) :
    ((rowCommands o cfg val col_name text_x avail_w y_pos).filter
      isNameText).map yOf =
      if cfg.show_column_names then [y_pos] else [] := by
  unfold rowCommands
  by_cases h1 : cfg.show_column_names <;>
    by_cases h2 : some col_name = cfg.highlight_column <;>
      simp [h1, h2, isNameText, yOf]

/-- Each text row contributes one inline highlight rectangle — of width
`stringWidth(val, bold, size) + highlight_padding` — exactly when its
column is the highlight column. -/
theorem rowCommands_filter_hl (o : Oracles) (cfg : LabelConfig)
    (val col_name : String) (text_x avail_w y_pos : ℚ) :
    ((rowCommands o cfg val col_name text_x avail_w y_pos).filter
      isHighlightRect).map wOf =
      if some col_name = cfg.highlight_column then
        [o.sw val (font_variant cfg.label_font "bold") cfg.label_font_size +
          cfg.highlight_padding]
      else [] := by
  unfold rowCommands
  by_cases h1 : cfg.show_column_names <;>
    by_cases h2 : some col_name = cfg.highlight_column <;>
      simp [h1, h2, isHighlightRect, wOf]

/-- Text rows contain no side-strip commands. -/
theorem rowCommands_filter_side (o : Oracles) (cfg : LabelConfig)
    (val col_name : String) (text_x avail_w y_pos : ℚ) :
    (rowCommands o cfg val col_name text_x avail_w y_pos).filter
      isSidebarCmd = [] := by
  unfold rowCommands
  by_cases h1 : cfg.show_column_names <;>
    by_cases h2 : some col_name = cfg.highlight_column <;>
      simp [h1, h2, isSidebarCmd, isRotatedText, isSideBoxRect]

/-- Text rows contain no code symbols. -/
theorem rowCommands_filter_code (o : Oracles) (cfg : LabelConfig)
    (val col_name : String) (text_x avail_w y_pos : ℚ) :
    (rowCommands o cfg val col_name text_x avail_w y_pos).filter
      isCodeCmd = [] := by
  unfold rowCommands
  by_cases h1 : cfg.show_column_names <;>
    by_cases h2 : some col_name = cfg.highlight_column <;>
      simp [h1, h2, isCodeCmd]

/-- The text-row loop emits one value command per visible column, at
baselines stepping down from `text_y_start` by exactly one `row_height`
per row. -/
theorem textRows_filter_value (o : Oracles) (cfg : LabelConfig)
    (row : Record) (text_x avail_w text_y_start row_height : ℚ) :
    ∀ (cols : List String) (idx : ℕ) (l : List DrawCmd),
      textRows o cfg row text_x avail_w text_y_start row_height idx cols =
        some l →
      (l.filter isValueText).map yOf =
        (List.range cols.length).map fun j =>
          text_y_start - ((idx + j : ℕ) : ℚ) * row_height := by
  intro cols
  induction cols with
  | nil =>
    intro idx l h
    simp only [textRows, Option.some.injEq] at h
    subst h
    simp
  | cons c cs ih =>
    intro idx l h
    simp only [textRows] at h
    cases hv : row.lookup c with
    | none => rw [hv] at h; exact absurd h (by simp)
    | some v =>
      rw [hv] at h
      cases hr : textRows o cfg row text_x avail_w text_y_start row_height
          (idx + 1) cs with
      | none => rw [hr] at h; exact absurd h (by simp)
      | some rest =>
        rw [hr] at h
        simp only [Option.some.injEq] at h
        subst h
        rw [List.filter_append, List.map_append, rowCommands_filter_value,
          ih (idx + 1) rest hr]
        simp only [List.length_cons]
        rw [List.range_succ_eq_map, List.map_cons, List.map_map]
        have he : (fun j => text_y_start - (((idx + 1) + j : ℕ) : ℚ) * row_height) =
            (fun j => text_y_start - ((idx + j : ℕ) : ℚ) * row_height) ∘ Nat.succ := by
          funext j
          simp only [Function.comp]
          rw [show idx + 1 + j = idx + Nat.succ j by omega]
        rw [he]
        simp

/-- The text-row loop emits one name label per visible column at the same
baselines when `show_column_names` is on, and none otherwise. -/
theorem textRows_filter_name (o : Oracles) (cfg : LabelConfig)
    (row : Record) (text_x avail_w text_y_start row_height : ℚ) :
    ∀ (cols : List String) (idx : ℕ) (l : List DrawCmd),
      textRows o cfg row text_x avail_w text_y_start row_height idx cols =
        some l →
      (l.filter isNameText).map yOf =
        if cfg.show_column_names then
          (List.range cols.length).map fun j =>
            text_y_start - ((idx + j : ℕ) : ℚ) * row_height
        else [] := by
  intro cols
  induction cols with
  | nil =>
    intro idx l h
    simp only [textRows, Option.some.injEq] at h
    subst h
    by_cases hn : cfg.show_column_names <;> simp [hn]
  | cons c cs ih =>
    intro idx l h
    simp only [textRows] at h
    cases hv : row.lookup c with
    | none => rw [hv] at h; exact absurd h (by simp)
    | some v =>
      rw [hv] at h
      cases hr : textRows o cfg row text_x avail_w text_y_start row_height
          (idx + 1) cs with
      | none => rw [hr] at h; exact absurd h (by simp)
      | some rest =>
        rw [hr] at h
        simp only [Option.some.injEq] at h
        subst h
        rw [List.filter_append, List.map_append, rowCommands_filter_name,
          ih (idx + 1) rest hr]
        by_cases hn : cfg.show_column_names
        · rw [if_pos hn, if_pos hn, if_pos hn]
          simp only [List.length_cons]
          rw [List.range_succ_eq_map, List.map_cons, List.map_map]
          have he : (fun j => text_y_start - (((idx + 1) + j : ℕ) : ℚ) * row_height) =
              (fun j => text_y_start - ((idx + j : ℕ) : ℚ) * row_height) ∘ Nat.succ := by
            funext j
            simp only [Function.comp]
            rw [show idx + 1 + j = idx + Nat.succ j by omega]
          rw [he]
          simp
        · rw [if_neg hn, if_neg hn, if_neg hn]
          rfl

/-- The text-row loop emits one auto-fit highlight rectangle per visible
column equal to the highlight column, of width
`stringWidth(value, bold, size) + highlight_padding`. -/
theorem textRows_filter_hl (o : Oracles) (cfg : LabelConfig)
    (row : Record) (text_x avail_w text_y_start row_height : ℚ) :
    ∀ (cols : List String) (idx : ℕ) (l : List DrawCmd),
      textRows o cfg row text_x avail_w text_y_start row_height idx cols =
        some l →
      (l.filter isHighlightRect).map wOf =
        (cols.filter fun c => decide (some c = cfg.highlight_column)).map
          fun c =>
            o.sw ((row.lookup c).getD "")
              (font_variant cfg.label_font "bold") cfg.label_font_size +
              cfg.highlight_padding := by
  intro cols
  induction cols with
  | nil =>
    intro idx l h
    simp only [textRows, Option.some.injEq] at h
    subst h
    simp
  | cons c cs ih =>
    intro idx l h
    simp only [textRows] at h
    cases hv : row.lookup c with
    | none => rw [hv] at h; exact absurd h (by simp)
    | some v =>
      rw [hv] at h
      cases hr : textRows o cfg row text_x avail_w text_y_start row_height
          (idx + 1) cs with
      | none => rw [hr] at h; exact absurd h (by simp)
      | some rest =>
        rw [hr] at h
        simp only [Option.some.injEq] at h
        subst h
        rw [List.filter_append, List.map_append, rowCommands_filter_hl,
          ih (idx + 1) rest hr]
        by_cases h2 : some c = cfg.highlight_column
        · simp [h2, hv]
        · simp [h2]

/-- The text-row loop emits no side-strip commands. -/
theorem textRows_filter_side (o : Oracles) (cfg : LabelConfig)
    (row : Record) (text_x avail_w text_y_start row_height : ℚ) :
    ∀ (cols : List String) (idx : ℕ) (l : List DrawCmd),
      textRows o cfg row text_x avail_w text_y_start row_height idx cols =
        some l →
      l.filter isSidebarCmd = [] := by
  intro cols
  induction cols with
  | nil =>
    intro idx l h
    simp only [textRows, Option.some.injEq] at h
    subst h
    rfl
  | cons c cs ih =>
    intro idx l h
    simp only [textRows] at h
    cases hv : row.lookup c with
    | none => rw [hv] at h; exact absurd h (by simp)
    | some v =>
      rw [hv] at h
      cases hr : textRows o cfg row text_x avail_w text_y_start row_height
          (idx + 1) cs with
      | none => rw [hr] at h; exact absurd h (by simp)
      | some rest =>
        rw [hr] at h
        simp only [Option.some.injEq] at h
        subst h
        rw [List.filter_append, rowCommands_filter_side, ih (idx + 1) rest hr]
        rfl

/-- The text-row loop emits no code symbols. -/
theorem textRows_filter_code (o : Oracles) (cfg : LabelConfig)
    (row : Record) (text_x avail_w text_y_start row_height : ℚ) :
    ∀ (cols : List String) (idx : ℕ) (l : List DrawCmd),
      textRows o cfg row text_x avail_w text_y_start row_height idx cols =
        some l →
      l.filter isCodeCmd = [] := by
  intro cols
  induction cols with
  | nil =>
    intro idx l h
    simp only [textRows, Option.some.injEq] at h
    subst h
    rfl
  | cons c cs ih =>
    intro idx l h
    simp only [textRows] at h
    cases hv : row.lookup c with
    | none => rw [hv] at h; exact absurd h (by simp)
    | some v =>
      rw [hv] at h
      cases hr : textRows o cfg row text_x avail_w text_y_start row_height
          (idx + 1) cs with
      | none => rw [hr] at h; exact absurd h (by simp)
      | some rest =>
        rw [hr] at h
        simp only [Option.some.injEq] at h
        subst h
        rw [List.filter_append, rowCommands_filter_code, ih (idx + 1) rest hr]
        rfl

/-! ## Packer characterization -/

/-- The placement the packer emits when the cursor is at `s`: the label is
rendered by `draw_label_on_canvas` at the cursor's origin. -/
def mkPlacement (o : Oracles) (cfg : LabelConfig) (df_row : Record)
    (s : PackState) : Placement :=
  { page := s.page, x := s.x, y := s.y,
    cmds := (draw_label_on_canvas o df_row s.x s.y cfg).getD [] }

/-- The placements the packer produces, described as iterates of the
cursor update: for each record, `rc` copies at successive cursor states. -/
def expectedPack (o : Oracles) (cfg : LabelConfig)
    (adv : PackState → PackState) (rc : ℕ) :
    List Record → PackState → List Placement
  | [], _ => []
  | r :: rs, s =>
    ((List.range rc).map fun i => mkPlacement o cfg r (adv^[i] s)) ++
      expectedPack o cfg adv rc rs (adv^[rc] s)

theorem placePos_mkPlacement (o : Oracles) (cfg : LabelConfig)
    (df_row : Record) (s : PackState) :
    placePos (mkPlacement o cfg df_row s) = statePos s := rfl

/-- `packCopies` places the `n` copies at the cursor iterates
`s, adv s, adv² s, …` and leaves the cursor at `adv^[n] s`. -/
theorem packCopies_states (o : Oracles) (cfg : LabelConfig)
    (lw_pt lh_pt pw ph m : ℚ) (df_row : Record) :
    ∀ (n : ℕ) (s : PackState) (ps : List Placement) (s' : PackState),
      packCopies o cfg lw_pt lh_pt pw ph m df_row n s = some (ps, s') →
      ps = ((List.range n).map fun i =>
          mkPlacement o cfg df_row ((packAdvance lw_pt lh_pt pw ph m)^[i] s)) ∧
      s' = (packAdvance lw_pt lh_pt pw ph m)^[n] s := by
  intro n
  induction n with
  | zero =>
    intro s ps s' h
    simp only [packCopies, Option.some.injEq, Prod.mk.injEq] at h
    obtain ⟨h1, h2⟩ := h
    subst h1
    subst h2
    exact ⟨by simp, by simp⟩
  | succ n ih =>
    intro s ps s' h
    simp only [packCopies] at h
    cases hd : draw_label_on_canvas o df_row s.x s.y cfg with
    | none => rw [hd] at h; exact absurd h (by simp)
    | some cmds =>
      rw [hd] at h
      cases hp : packCopies o cfg lw_pt lh_pt pw ph m df_row n
          (packAdvance lw_pt lh_pt pw ph m s) with
      | none => rw [hp] at h; exact absurd h (by simp)
      | some pr =>
        obtain ⟨ps₁, s₁⟩ := pr
        rw [hp] at h
        dsimp only at h
        simp only [Option.some.injEq, Prod.mk.injEq] at h
        obtain ⟨hps, hs'⟩ := h
        obtain ⟨hps₁, hs₁⟩ := ih (packAdvance lw_pt lh_pt pw ph m s) ps₁ s₁ hp
        constructor
        · rw [← hps, hps₁, List.range_succ_eq_map, List.map_cons, List.map_map]
          congr 1
          simp [mkPlacement, Function.iterate_zero_apply, hd]
        · rw [← hs', hs₁, Function.iterate_succ_apply]

/-- `packRecords` produces exactly the expected placements and leaves the
cursor at the `rc * |rows|`-th iterate. -/
theorem packRecords_states (o : Oracles) (cfg : LabelConfig)
    (lw_pt lh_pt pw ph m : ℚ) (rc : ℕ) :
    ∀ (rows : List Record) (s : PackState) (ps : List Placement)
      (s' : PackState),
      packRecords o cfg lw_pt lh_pt pw ph m rc rows s = some (ps, s') →
      ps = expectedPack o cfg (packAdvance lw_pt lh_pt pw ph m) rc rows s ∧
      s' = (packAdvance lw_pt lh_pt pw ph m)^[rc * rows.length] s := by
  intro rows
  induction rows with
  | nil =>
    intro s ps s' h
    simp only [packRecords, Option.some.injEq, Prod.mk.injEq] at h
    exact ⟨h.1.symm.trans (by simp [expectedPack]), by simp [← h.2]⟩
  | cons r rs ih =>
    intro s ps s' h
    simp only [packRecords] at h
    cases hp : packCopies o cfg lw_pt lh_pt pw ph m r rc s with
    | none => rw [hp] at h; exact absurd h (by simp)
    | some pr =>
      obtain ⟨ps₁, s₁⟩ := pr
      rw [hp] at h
      dsimp only at h
      cases hq : packRecords o cfg lw_pt lh_pt pw ph m rc rs s₁ with
      | none => rw [hq] at h; exact absurd h (by simp)
      | some qr =>
        obtain ⟨ps₂, s₂⟩ := qr
        rw [hq] at h
        dsimp only at h
        simp only [Option.some.injEq, Prod.mk.injEq] at h
        obtain ⟨hps, hs'⟩ := h
        obtain ⟨hps₁, hs₁⟩ := packCopies_states o cfg lw_pt lh_pt pw ph m r
          rc s ps₁ s₁ hp
        obtain ⟨hps₂, hs₂⟩ := ih s₁ ps₂ s₂ hq
        constructor
        · rw [← hps, hps₁, hps₂, hs₁]
          rfl
        · rw [← hs', hs₂, hs₁, ← Function.iterate_add_apply,
            List.length_cons, Nat.mul_succ]

/-- Positions of the expected placements: the `i`-th placement sits at the
`i`-th iterate of the cursor update. -/
theorem expectedPack_map_pos (o : Oracles) (cfg : LabelConfig)
    (adv : PackState → PackState) (rc : ℕ) :
    ∀ (rows : List Record) (s : PackState),
      (expectedPack o cfg adv rc rows s).map placePos =
        (List.range (rc * rows.length)).map fun i => statePos (adv^[i] s) := by
  intro rows
  induction rows with
  | nil => intro s; simp [expectedPack]
  | cons r rs ih =>
    intro s
    simp only [expectedPack, List.map_append]
    rw [show rc * (r :: rs).length = rc + rc * rs.length from by
      rw [List.length_cons]; ring]
    rw [List.range_add, List.map_append]
    congr 1
    · rw [List.map_map]
      apply List.map_congr_left
      intro i _
      rfl
    · rw [ih, List.map_map]
      apply List.map_congr_left
      intro i _
      simp only [Function.comp_apply]
      rw [← Function.iterate_add_apply, Nat.add_comm]

/-- When every needed field of the record is present, placing copies never
fails. -/
theorem packCopies_exists (o : Oracles) (cfg : LabelConfig)
    (lw_pt lh_pt pw ph m : ℚ) (df_row : Record)
    (h : fieldsReadyB cfg df_row = true) :
    ∀ (n : ℕ) (s : PackState), ∃ ps s',
      packCopies o cfg lw_pt lh_pt pw ph m df_row n s = some (ps, s') := by
  intro n
  induction n with
  | zero => intro s; exact ⟨[], s, rfl⟩
  | succ n ih =>
    intro s
    have hd := draw_isSome o df_row s.x s.y cfg
    rw [h] at hd
    obtain ⟨cmds, hcmds⟩ := Option.isSome_iff_exists.mp hd
    obtain ⟨ps, s', hps⟩ := ih (packAdvance lw_pt lh_pt pw ph m s)
    refine ⟨{ page := s.page, x := s.x, y := s.y, cmds := cmds } :: ps, s', ?_⟩
    simp only [packCopies, hcmds, hps]

/-- When every needed field of every record is present, the packer never
fails. -/
theorem packRecords_exists (o : Oracles) (cfg : LabelConfig)
    (lw_pt lh_pt pw ph m : ℚ) (rc : ℕ) :
    ∀ (rows : List Record), (∀ r ∈ rows, fieldsReadyB cfg r = true) →
      ∀ (s : PackState), ∃ ps s',
        packRecords o cfg lw_pt lh_pt pw ph m rc rows s = some (ps, s') := by
  intro rows
  induction rows with
  | nil => intro _ s; exact ⟨[], s, rfl⟩
  | cons r rs ih =>
    intro h s
    obtain ⟨ps₁, s₁, h₁⟩ := packCopies_exists o cfg lw_pt lh_pt pw ph m r
      (h r (by simp)) rc s
    obtain ⟨ps₂, s₂, h₂⟩ := ih (fun q hq => h q (by simp [hq])) s₁
    refine ⟨ps₁ ++ ps₂, s₂, ?_⟩
    simp only [packRecords, h₁, h₂]

/-- The cursor update keeps the cursor inside the page: starting from an
in-bounds cursor, the advanced cursor is in bounds again, provided the
label (plus margins) fits on the page. -/
theorem packAdvance_inv (lw_pt lh_pt pw ph m : ℚ) (hm : 0 ≤ m)
    (hlw : 0 ≤ lw_pt) (hlh : 0 ≤ lh_pt) (hw : lw_pt + 2 * m ≤ pw)
    (hh : lh_pt + 2 * m ≤ ph) (s : PackState)
    (hinv : m ≤ s.x ∧ s.x + lw_pt ≤ pw ∧ m ≤ s.y ∧ s.y + lh_pt ≤ ph) :
    m ≤ (packAdvance lw_pt lh_pt pw ph m s).x ∧
      (packAdvance lw_pt lh_pt pw ph m s).x + lw_pt ≤ pw ∧
      m ≤ (packAdvance lw_pt lh_pt pw ph m s).y ∧
      (packAdvance lw_pt lh_pt pw ph m s).y + lh_pt ≤ ph := by
  obtain ⟨h1, h2, h3, h4⟩ := hinv
  simp only [packAdvance]
  by_cases hx : s.x + lw_pt + m + lw_pt > pw
  · rw [if_pos hx]
    by_cases hy : s.y - (lh_pt + m) < m
    · rw [if_pos hy]
      dsimp only
      refine ⟨le_refl m, by linarith, by linarith, by linarith⟩
    · rw [if_neg hy]
      push_neg at hy
      dsimp only
      refine ⟨le_refl m, by linarith, by linarith, by linarith⟩
  · rw [if_neg hx]
    push_neg at hx
    dsimp only
    refine ⟨by linarith, by linarith, h3, h4⟩

/-! ## Concrete fixtures for witnesses and counterexamples -/

/-- A concrete measurement oracle: every string measures 20 points; QR
symbols have native bounds 29 × 29. -/
def oW : Oracles :=
  { sw := fun _ _ _ => 20, qrBounds := fun _ => ⟨0, 0, 29, 29⟩ }

/-- A concrete configuration: the app's default parameters on a 70 × 35 mm
label with two visible columns. -/
def cfgW : LabelConfig := {
  visible_columns := ["ID", "Species"]
  code_column := none
  code_type := "None"
  highlight_column := none
  label_font := "Helvetica"
  label_font_size := 7
  label_width := 70
  label_height := 35
  qr_size := 18
  barcode_width := 25
  barcode_height := 10
  row_height_factor := 9 / 10
  sidebar_factor := 1 / 10
  highlight_padding := 2
  padding := 4
  show_border := true
  show_column_names := true
  side_highlight := false
  qr_left_offset := 2
  text_left_offset := 0 }

/-- A concrete record supplying both visible columns of `cfgW`. -/
def rowW : Record := [("ID", "P001"), ("Species", "Arabidopsis")]

/-- A list whose filter is empty is unchanged by the complementary
filter. -/
theorem filter_not_of_filter_nil {α : Type} {p : α → Bool} :
    ∀ {l : List α}, l.filter p = [] →
      (l.filter fun a => ! p a) = l := by
  intro l
  induction l with
  | nil => intro _; rfl
  | cons a t ih =>
    intro h
    by_cases hp : p a
    · simp [List.filter_cons, hp] at h
    · simp only [List.filter_cons, hp, Bool.not_false, if_neg] at h ⊢
      simp only [Bool.false_eq_true, if_false] at h
      simp only [hp, Bool.not_false, if_true, if_pos]
      rw [ih h]

/-! ## Claims -/

/-- C1 (amended): `draw_label_on_canvas` completes normally exactly when
every field referenced by the config — each visible column, the highlight
column when the side strip is active, the code column when a code is drawn
— is present in the record.  A referenced field absent from the record
makes the whole call fail (Python raises `KeyError` at `df_row[...]`); the
missing value is not replaced by an empty string. -/
theorem C1_missing_field (o : Oracles) (row : Record) (x y : ℚ)
    (cfg : LabelConfig) :
    (draw_label_on_canvas o row x y cfg).isSome = fieldsReadyB cfg row :=
  draw_isSome o row x y cfg

/-- C1 counterexample: with `visibleColumns = ["Missing"]` and a record
lacking that field, layout fails (`none`, the model of the raised
`KeyError`) instead of substituting an empty string and completing
normally. -/
theorem C1_cex :
    draw_label_on_canvas oW rowW 0 0
      { cfgW with visible_columns := ["Missing"] } = none := by decide

/-- C10: any `page_format` other than the three named modes falls back to
A4 page dimensions (210 × 297 mm) with a 5 mm margin rather than failing,
and the output equals that of `page_format = "A4"`. -/
theorem C10_unknown_format (o : Oracles) (df : List Record)
    (cfg : LabelConfig) (rc : ℕ) (pf : String) (h1 : pf ≠ "A4")
    (h2 : pf ≠ "Letter") (h3 : pf ≠ "LabelPrinter") :
    generate_sheet_direct o df cfg pf rc =
      generate_sheet_direct o df cfg "A4" rc ∧
    pageDims pf cfg.label_width cfg.label_height =
      (210 * mmPt, 297 * mmPt, 5 * mmPt) := by
  have hpd : pageDims pf cfg.label_width cfg.label_height =
      pageDims "A4" cfg.label_width cfg.label_height := by
    unfold pageDims
    rw [if_neg h1, if_neg h2, if_neg h3, if_pos rfl]
  refine ⟨?_, ?_⟩
  · unfold generate_sheet_direct
    rw [hpd]
  · rw [hpd]
    unfold pageDims
    rw [if_pos rfl]

theorem C10_witness :
    generate_sheet_direct oW [rowW] cfgW "Foo" 1 =
      generate_sheet_direct oW [rowW] cfgW "A4" 1 ∧
    pageDims "Foo" cfgW.label_width cfgW.label_height =
      (210 * mmPt, 297 * mmPt, 5 * mmPt) :=
  C10_unknown_format oW [rowW] cfgW 1 "Foo" (by decide) (by decide)
    (by decide)

/-- C4: for `N = |visibleColumns| ≥ 1` (all referenced fields present),
layout emits exactly `N` text-value commands, at baselines starting
`labelHeight − padding − 0.1·rowHeight` above the label bottom and
stepping down by exactly one `rowHeight` per row, with
`rowHeight = ((labelHeight − 2·padding) / N) · rowHeightFactor`; when
`showColumnNames` is on it also emits `N` name-label commands at the same
baselines; and whenever `rowHeight ≠ 0` those `N` baselines are pairwise
distinct. -/
theorem C4_text_rows (o : Oracles) (row : Record) (x y : ℚ)
    (cfg : LabelConfig) (hN : 1 ≤ cfg.visible_columns.length)
    (hready : fieldsReadyB cfg row = true) :
    ((draw_label_on_canvas o row x y cfg).map fun cmds =>
        (cmds.filter isValueText).map yOf) =
      some ((List.range cfg.visible_columns.length).map fun j : ℕ =>
        textYStartOf cfg y - (j : ℚ) * rowHeightOf cfg) ∧
    ((draw_label_on_canvas o row x y cfg).map fun cmds =>
        (cmds.filter isNameText).map yOf) =
      some (if cfg.show_column_names then
        (List.range cfg.visible_columns.length).map fun j : ℕ =>
          textYStartOf cfg y - (j : ℚ) * rowHeightOf cfg
      else []) ∧
    rowHeightOf cfg =
      ((cfg.label_height * mmPt - 2 * (cfg.padding * mmPt)) /
        (cfg.visible_columns.length : ℚ)) * cfg.row_height_factor ∧
    textYStartOf cfg y =
      y + cfg.label_height * mmPt - cfg.padding * mmPt -
        rowHeightOf cfg * (1 / 10) ∧
    (rowHeightOf cfg ≠ 0 →
      ((List.range cfg.visible_columns.length).map fun j : ℕ =>
        textYStartOf cfg y - (j : ℚ) * rowHeightOf cfg).Nodup) := by
  have hr := hready
  rw [fieldsReadyB, Bool.and_eq_true, Bool.and_eq_true] at hr
  obtain ⟨⟨h1, h2⟩, h3⟩ := hr
  obtain ⟨w, sc, hs⟩ := sidebarSection_exists o cfg row x y
    (cfg.label_width * mmPt) (cfg.label_height * mmPt) h1
  obtain ⟨t, cl, hc⟩ := codeSection_exists o cfg row x y
    (cfg.label_height * mmPt) w (cfg.padding * mmPt) h2
  obtain ⟨rows, ht⟩ := textRows_exists o cfg row
    (t + cfg.text_left_offset * mmPt)
    (cfg.label_width * mmPt - (t + cfg.text_left_offset * mmPt - x) -
      cfg.padding * mmPt) (textYStartOf cfg y) (rowHeightOf cfg) h3
  have hdraw := draw_eq_sections o row x y cfg w t sc cl rows hs hc ht
  rw [hdraw]
  simp only [Option.map_some']
  refine ⟨?_, ?_, ?_, rfl, ?_⟩
  · rw [List.filter_append, List.filter_append, List.filter_append,
      List.map_append, List.map_append, List.map_append,
      borderCmds_filter_value,
      sidebarSection_filter_value o cfg row x y
        (cfg.label_width * mmPt) (cfg.label_height * mmPt) w sc hs,
      codeSection_filter_value o cfg row x y (cfg.label_height * mmPt) w
        (cfg.padding * mmPt) t cl hc,
      textRows_filter_value o cfg row (t + cfg.text_left_offset * mmPt)
        (cfg.label_width * mmPt - (t + cfg.text_left_offset * mmPt - x) -
          cfg.padding * mmPt) (textYStartOf cfg y) (rowHeightOf cfg)
        cfg.visible_columns 0 rows ht]
    simp only [List.map_nil, List.nil_append]
    refine congrArg some (List.map_congr_left fun j _ => ?_)
    norm_num
  · rw [List.filter_append, List.filter_append, List.filter_append,
      List.map_append, List.map_append, List.map_append,
      borderCmds_filter_name,
      sidebarSection_filter_name o cfg row x y
        (cfg.label_width * mmPt) (cfg.label_height * mmPt) w sc hs,
      codeSection_filter_name o cfg row x y (cfg.label_height * mmPt) w
        (cfg.padding * mmPt) t cl hc,
      textRows_filter_name o cfg row (t + cfg.text_left_offset * mmPt)
        (cfg.label_width * mmPt - (t + cfg.text_left_offset * mmPt - x) -
          cfg.padding * mmPt) (textYStartOf cfg y) (rowHeightOf cfg)
        cfg.visible_columns 0 rows ht]
    simp only [List.map_nil, List.nil_append]
    by_cases hn : cfg.show_column_names
    · rw [if_pos hn, if_pos hn]
      refine congrArg some (List.map_congr_left fun j _ => ?_)
      norm_num
    · rw [if_neg hn, if_neg hn]
  · rw [rowHeightOf, rowCountOf, Nat.max_eq_left hN]
  · intro hrh
    have hinj : Function.Injective fun j : ℕ =>
        textYStartOf cfg y - (j : ℚ) * rowHeightOf cfg := by
      intro a b hab
      dsimp only at hab
      have hm : (a : ℚ) * rowHeightOf cfg = (b : ℚ) * rowHeightOf cfg := by
        linarith
      exact_mod_cast mul_right_cancel₀ hrh hm
    exact (List.nodup_range _).map hinj

theorem C4_witness :
    ((draw_label_on_canvas oW rowW 0 0 cfgW).map fun cmds =>
        (cmds.filter isValueText).map yOf) =
      some ((List.range cfgW.visible_columns.length).map fun j : ℕ =>
        textYStartOf cfgW 0 - (j : ℚ) * rowHeightOf cfgW) ∧
    ((draw_label_on_canvas oW rowW 0 0 cfgW).map fun cmds =>
        (cmds.filter isNameText).map yOf) =
      some (if cfgW.show_column_names then
        (List.range cfgW.visible_columns.length).map fun j : ℕ =>
          textYStartOf cfgW 0 - (j : ℚ) * rowHeightOf cfgW
      else []) ∧
    rowHeightOf cfgW =
      ((cfgW.label_height * mmPt - 2 * (cfgW.padding * mmPt)) /
        (cfgW.visible_columns.length : ℚ)) * cfgW.row_height_factor ∧
    textYStartOf cfgW 0 =
      0 + cfgW.label_height * mmPt - cfgW.padding * mmPt -
        rowHeightOf cfgW * (1 / 10) ∧
    (rowHeightOf cfgW ≠ 0 →
      ((List.range cfgW.visible_columns.length).map fun j : ℕ =>
        textYStartOf cfgW 0 - (j : ℚ) * rowHeightOf cfgW).Nodup) :=
  C4_text_rows oW rowW 0 0 cfgW (by decide) (by decide)

/-- C7: every inline highlight rectangle layout emits — one per visible
column equal to the highlight column — has width exactly
`stringWidth(value, bold, fontSize) + highlightPadding`; the width formula
involves neither `labelWidth` nor `labelHeight`. -/
theorem C7_highlight_autofit (o : Oracles) (row : Record) (x y : ℚ)
    (cfg : LabelConfig) (hready : fieldsReadyB cfg row = true) :
    ((draw_label_on_canvas o row x y cfg).map fun cmds =>
        (cmds.filter isHighlightRect).map wOf) =
      some ((cfg.visible_columns.filter fun c =>
          decide (some c = cfg.highlight_column)).map fun c =>
        o.sw ((row.lookup c).getD "") (font_variant cfg.label_font "bold")
          cfg.label_font_size + cfg.highlight_padding) := by
  have hr := hready
  rw [fieldsReadyB, Bool.and_eq_true, Bool.and_eq_true] at hr
  obtain ⟨⟨h1, h2⟩, h3⟩ := hr
  obtain ⟨w, sc, hs⟩ := sidebarSection_exists o cfg row x y
    (cfg.label_width * mmPt) (cfg.label_height * mmPt) h1
  obtain ⟨t, cl, hc⟩ := codeSection_exists o cfg row x y
    (cfg.label_height * mmPt) w (cfg.padding * mmPt) h2
  obtain ⟨rows, ht⟩ := textRows_exists o cfg row
    (t + cfg.text_left_offset * mmPt)
    (cfg.label_width * mmPt - (t + cfg.text_left_offset * mmPt - x) -
      cfg.padding * mmPt) (textYStartOf cfg y) (rowHeightOf cfg) h3
  have hdraw := draw_eq_sections o row x y cfg w t sc cl rows hs hc ht
  rw [hdraw]
  simp only [Option.map_some']
  rw [List.filter_append, List.filter_append, List.filter_append,
    List.map_append, List.map_append, List.map_append,
    borderCmds_filter_hl,
    sidebarSection_filter_hl o cfg row x y
      (cfg.label_width * mmPt) (cfg.label_height * mmPt) w sc hs,
    codeSection_filter_hl o cfg row x y (cfg.label_height * mmPt) w
      (cfg.padding * mmPt) t cl hc,
    textRows_filter_hl o cfg row (t + cfg.text_left_offset * mmPt)
      (cfg.label_width * mmPt - (t + cfg.text_left_offset * mmPt - x) -
        cfg.padding * mmPt) (textYStartOf cfg y) (rowHeightOf cfg)
      cfg.visible_columns 0 rows ht]
  simp

/-- `cfgW` with the `ID` column highlighted (inline only). -/
def cfgH : LabelConfig := { cfgW with highlight_column := some "ID" }

theorem C7_witness :
    ((draw_label_on_canvas oW rowW 0 0 cfgH).map fun cmds =>
        (cmds.filter isHighlightRect).map wOf) =
      some ((cfgH.visible_columns.filter fun c =>
          decide (some c = cfgH.highlight_column)).map fun c =>
        oW.sw ((rowW.lookup c).getD "") (font_variant cfgH.label_font "bold")
          cfgH.label_font_size + cfgH.highlight_padding) :=
  C7_highlight_autofit oW rowW 0 0 cfgH (by decide)

/-- C5 (amended): with the side strip active, the engine emits exactly the
three strip commands; the strip's drawn vertical span — from the bottom of
the rotated name text to the top of the value box — equals
`measuredValueWidth + highlightPadding + 1 mm gap + measuredNameWidth`
(the code's `val_w` includes `highlight_padding`, so the span exceeds the
spec's `measuredValueWidth + gap + measuredNameWidth` by exactly
`highlightPadding`); this span is centered vertically in the label (equal
gaps below and above); and the value box's extent along the rotated text
direction equals the measured bold text width plus `highlightPadding`. -/
theorem C5_side_strip (o : Oracles) (row : Record) (x y : ℚ)
    (cfg : LabelConfig) (hc value : String)
    (hhc : cfg.highlight_column = some hc) (hsh : cfg.side_highlight = true)
    (hne : hc ≠ "") (hval : row.lookup hc = some value)
    (hready : fieldsReadyB cfg row = true) :
    ((draw_label_on_canvas o row x y cfg).map fun cmds =>
        cmds.filter isSidebarCmd) =
      some (sidebarCmds o cfg hc value x y (cfg.label_width * mmPt)
        (cfg.label_height * mmPt)) ∧
    sidebarCmds o cfg hc value x y (cfg.label_width * mmPt)
        (cfg.label_height * mmPt) =
      [DrawCmd.rotatedText
          (x + cfg.label_width * mmPt * cfg.sidebar_factor / 2)
          (sideBottom o cfg hc value y (cfg.label_height * mmPt) +
            sideNamW o cfg hc / 2) 90 (hc ++ ":")
          (font_variant cfg.label_font "italic") cfg.label_font_size
          Color.black,
        DrawCmd.rect x
          (sideBottom o cfg hc value y (cfg.label_height * mmPt) +
            sideNamW o cfg hc + sideGap)
          (cfg.label_width * mmPt * cfg.sidebar_factor)
          (sideValW o cfg value) true false Color.black,
        DrawCmd.rotatedText
          (x + cfg.label_width * mmPt * cfg.sidebar_factor / 2)
          (sideBottom o cfg hc value y (cfg.label_height * mmPt) +
            sideNamW o cfg hc + sideGap + sideValW o cfg value / 2) 90 value
          (font_variant cfg.label_font "bold") cfg.label_font_size
          Color.white] ∧
    (sideBottom o cfg hc value y (cfg.label_height * mmPt) +
        sideNamW o cfg hc + sideGap + sideValW o cfg value) -
      sideBottom o cfg hc value y (cfg.label_height * mmPt) =
      o.sw value (font_variant cfg.label_font "bold") cfg.label_font_size +
        cfg.highlight_padding + 1 * mmPt + sideNamW o cfg hc ∧
    sideBottom o cfg hc value y (cfg.label_height * mmPt) - y =
      (y + cfg.label_height * mmPt) -
        (sideBottom o cfg hc value y (cfg.label_height * mmPt) +
          sideSpan o cfg hc value) ∧
    sideValW o cfg value =
      o.sw value (font_variant cfg.label_font "bold") cfg.label_font_size +
        cfg.highlight_padding := by
  have hsec : sidebarSection o cfg row x y (cfg.label_width * mmPt)
      (cfg.label_height * mmPt) =
      some (cfg.label_width * mmPt * cfg.sidebar_factor,
        sidebarCmds o cfg hc value x y (cfg.label_width * mmPt)
          (cfg.label_height * mmPt)) := by
    unfold sidebarSection
    rw [hhc]
    dsimp only
    rw [if_pos ⟨hsh, hne⟩, hval]
  have hr := hready
  rw [fieldsReadyB, Bool.and_eq_true, Bool.and_eq_true] at hr
  obtain ⟨⟨h1, h2⟩, h3⟩ := hr
  obtain ⟨t, cl, hcs⟩ := codeSection_exists o cfg row x y
    (cfg.label_height * mmPt) (cfg.label_width * mmPt * cfg.sidebar_factor)
    (cfg.padding * mmPt) h2
  obtain ⟨rows, ht⟩ := textRows_exists o cfg row
    (t + cfg.text_left_offset * mmPt)
    (cfg.label_width * mmPt - (t + cfg.text_left_offset * mmPt - x) -
      cfg.padding * mmPt) (textYStartOf cfg y) (rowHeightOf cfg) h3
  have hdraw := draw_eq_sections o row x y cfg
    (cfg.label_width * mmPt * cfg.sidebar_factor) t
    (sidebarCmds o cfg hc value x y (cfg.label_width * mmPt)
      (cfg.label_height * mmPt)) cl rows hsec hcs ht
  refine ⟨?_, rfl, ?_, ?_, rfl⟩
  · rw [hdraw]
    simp only [Option.map_some']
    rw [List.filter_append, List.filter_append, List.filter_append,
      borderCmds_filter_side, sidebarCmds_filter_side,
      codeSection_filter_side o cfg row x y (cfg.label_height * mmPt)
        (cfg.label_width * mmPt * cfg.sidebar_factor) (cfg.padding * mmPt)
        t cl hcs,
      textRows_filter_side o cfg row (t + cfg.text_left_offset * mmPt)
        (cfg.label_width * mmPt - (t + cfg.text_left_offset * mmPt - x) -
          cfg.padding * mmPt) (textYStartOf cfg y) (rowHeightOf cfg)
        cfg.visible_columns 0 rows ht]
    simp
  · simp only [sideValW, sideGap]
    ring
  · simp only [sideBottom]
    ring

/-- Used by C5's counterexample: `cfgW` with the `ID` column highlighted
and the rotated side strip on, showing only the `ID` column. -/
def cfgS : LabelConfig :=
  { cfgW with
    highlight_column := some "ID"
    side_highlight := true
    visible_columns := ["ID"] }

/-- The side-strip commands the layout engine emits for the C5
counterexample input, extracted from the full draw output. -/
theorem drawS_sidebar_filter :
    ((draw_label_on_canvas oW [("ID", "V")] 0 0 cfgS).map fun cmds =>
        cmds.filter isSidebarCmd) =
      some (sidebarCmds oW cfgS "ID" "V" 0 0 (cfgS.label_width * mmPt)
        (cfgS.label_height * mmPt)) := by
  have hsec : sidebarSection oW cfgS [("ID", "V")] 0 0
      (cfgS.label_width * mmPt) (cfgS.label_height * mmPt) =
      some (cfgS.label_width * mmPt * cfgS.sidebar_factor,
        sidebarCmds oW cfgS "ID" "V" 0 0 (cfgS.label_width * mmPt)
          (cfgS.label_height * mmPt)) := rfl
  obtain ⟨t, cl, hcs⟩ := codeSection_exists oW cfgS [("ID", "V")] 0 0
    (cfgS.label_height * mmPt) (cfgS.label_width * mmPt * cfgS.sidebar_factor)
    (cfgS.padding * mmPt) (by decide)
  obtain ⟨rows, ht⟩ := textRows_exists oW cfgS [("ID", "V")]
    (t + cfgS.text_left_offset * mmPt)
    (cfgS.label_width * mmPt - (t + cfgS.text_left_offset * mmPt - 0) -
      cfgS.padding * mmPt) (textYStartOf cfgS 0) (rowHeightOf cfgS)
    (by decide)
  have hdraw := draw_eq_sections oW [("ID", "V")] 0 0 cfgS
    (cfgS.label_width * mmPt * cfgS.sidebar_factor) t
    (sidebarCmds oW cfgS "ID" "V" 0 0 (cfgS.label_width * mmPt)
      (cfgS.label_height * mmPt)) cl rows hsec hcs ht
  rw [hdraw]
  simp only [Option.map_some']
  rw [List.filter_append, List.filter_append, List.filter_append,
    borderCmds_filter_side, sidebarCmds_filter_side,
    codeSection_filter_side oW cfgS [("ID", "V")] 0 0
      (cfgS.label_height * mmPt)
      (cfgS.label_width * mmPt * cfgS.sidebar_factor) (cfgS.padding * mmPt)
      t cl hcs,
    textRows_filter_side oW cfgS [("ID", "V")]
      (t + cfgS.text_left_offset * mmPt)
      (cfgS.label_width * mmPt - (t + cfgS.text_left_offset * mmPt - 0) -
        cfgS.padding * mmPt) (textYStartOf cfgS 0) (rowHeightOf cfgS)
      cfgS.visible_columns 0 rows ht]
  simp

/-- C5 counterexample: with every string measuring 20 pt and
`highlightPadding = 2`, the emitted strip is the name text pivoted at
`4723/127` (so its bottom is at `3453/127`), the value box from `6353/127`
with height 22, and the value text pivoted at `7750/127`.  The drawn span,
box top minus name bottom, is `20 + 2 + 1mm + 20` — the value's measured
width plus `highlightPadding` plus the gap plus the name's measured width —
and it differs from the claim's `measuredValueWidth + 1mm gap +
measuredNameWidth`, which omits the `highlightPadding` of 2. -/
theorem C5_cex :
    ((draw_label_on_canvas oW [("ID", "V")] 0 0 cfgS).map fun cmds =>
        cmds.filter isSidebarCmd) =
      some [DrawCmd.rotatedText (1260 / 127) (4723 / 127) 90 ("ID" ++ ":")
          "Helvetica-Oblique" 7 Color.black,
        DrawCmd.rect 0 (6353 / 127) (2520 / 127) 22 true false Color.black,
        DrawCmd.rotatedText (1260 / 127) (7750 / 127) 90 "V"
          "Helvetica-Bold" 7 Color.white] ∧
    ((6353 : ℚ) / 127 + 22) - (4723 / 127 - 20 / 2) =
      20 + 2 + 1 * mmPt + 20 ∧
    ((6353 : ℚ) / 127 + 22) - (4723 / 127 - 20 / 2) ≠
      20 + 1 * mmPt + 20 := by
  refine ⟨?_, by norm_num [mmPt], by norm_num [mmPt]⟩
  rw [drawS_sidebar_filter]
  norm_num [sidebarCmds, sideBottom, sideSpan, sideValW, sideNamW, sideGap,
    font_variant, familyTable, oW, cfgS, cfgW, mmPt]
  decide

theorem C5_witness :
    ((draw_label_on_canvas oW [("ID", "V")] 0 0 cfgS).map fun cmds =>
        cmds.filter isSidebarCmd) =
      some (sidebarCmds oW cfgS "ID" "V" 0 0 (cfgS.label_width * mmPt)
        (cfgS.label_height * mmPt)) ∧
    sidebarCmds oW cfgS "ID" "V" 0 0 (cfgS.label_width * mmPt)
        (cfgS.label_height * mmPt) =
      [DrawCmd.rotatedText
          (0 + cfgS.label_width * mmPt * cfgS.sidebar_factor / 2)
          (sideBottom oW cfgS "ID" "V" 0 (cfgS.label_height * mmPt) +
            sideNamW oW cfgS "ID" / 2) 90 ("ID" ++ ":")
          (font_variant cfgS.label_font "italic") cfgS.label_font_size
          Color.black,
        DrawCmd.rect 0
          (sideBottom oW cfgS "ID" "V" 0 (cfgS.label_height * mmPt) +
            sideNamW oW cfgS "ID" + sideGap)
          (cfgS.label_width * mmPt * cfgS.sidebar_factor)
          (sideValW oW cfgS "V") true false Color.black,
        DrawCmd.rotatedText
          (0 + cfgS.label_width * mmPt * cfgS.sidebar_factor / 2)
          (sideBottom oW cfgS "ID" "V" 0 (cfgS.label_height * mmPt) +
            sideNamW oW cfgS "ID" + sideGap + sideValW oW cfgS "V" / 2) 90
          "V" (font_variant cfgS.label_font "bold") cfgS.label_font_size
          Color.white] ∧
    (sideBottom oW cfgS "ID" "V" 0 (cfgS.label_height * mmPt) +
        sideNamW oW cfgS "ID" + sideGap + sideValW oW cfgS "V") -
      sideBottom oW cfgS "ID" "V" 0 (cfgS.label_height * mmPt) =
      oW.sw "V" (font_variant cfgS.label_font "bold") cfgS.label_font_size +
        cfgS.highlight_padding + 1 * mmPt + sideNamW oW cfgS "ID" ∧
    sideBottom oW cfgS "ID" "V" 0 (cfgS.label_height * mmPt) - 0 =
      (0 + cfgS.label_height * mmPt) -
        (sideBottom oW cfgS "ID" "V" 0 (cfgS.label_height * mmPt) +
          sideSpan oW cfgS "ID" "V") ∧
    sideValW oW cfgS "V" =
      oW.sw "V" (font_variant cfgS.label_font "bold") cfgS.label_font_size +
        cfgS.highlight_padding :=
  C5_side_strip oW [("ID", "V")] 0 0 cfgS "ID" "V" (by decide) (by decide)
    (by decide) (by decide) (by decide)

/-- C8: the QR symbol is emitted at `x = sideStripWidth + qrLeftOffset`,
vertically centered in the label, as a drawing of side `qrSize` scaled
uniformly by `qrSize / max(nativeWidth, nativeHeight)`, so the rendered
square side equals `qrSize` exactly (`scale · maxDim = qrSize`, in
points). -/
theorem C8_qr_scaling (o : Oracles) (row : Record) (x y : ℚ)
    (cfg : LabelConfig) (cc val : String)
    (hcc : cfg.code_column = some cc) (hqr : cfg.code_type = "QR")
    (hval : row.lookup cc = some val)
    (hready : fieldsReadyB cfg row = true)
    (hmax : 0 < max ((o.qrBounds val).x1 - (o.qrBounds val).x0)
        ((o.qrBounds val).y1 - (o.qrBounds val).y0)) :
    ((draw_label_on_canvas o row x y cfg).map fun cmds =>
        cmds.filter isCodeCmd) =
      some [DrawCmd.qrSymbol
        (x + sideWidthOf cfg + cfg.qr_left_offset * mmPt)
        (y + (cfg.label_height * mmPt - cfg.qr_size * mmPt) / 2) val
        (cfg.qr_size * mmPt)
        (cfg.qr_size * mmPt /
          max ((o.qrBounds val).x1 - (o.qrBounds val).x0)
            ((o.qrBounds val).y1 - (o.qrBounds val).y0))] ∧
    (cfg.qr_size * mmPt /
        max ((o.qrBounds val).x1 - (o.qrBounds val).x0)
          ((o.qrBounds val).y1 - (o.qrBounds val).y0)) *
      max ((o.qrBounds val).x1 - (o.qrBounds val).x0)
        ((o.qrBounds val).y1 - (o.qrBounds val).y0) =
      cfg.qr_size * mmPt := by
  have hr := hready
  rw [fieldsReadyB, Bool.and_eq_true, Bool.and_eq_true] at hr
  obtain ⟨⟨h1, h2⟩, h3⟩ := hr
  obtain ⟨w, sc, hs⟩ := sidebarSection_exists o cfg row x y
    (cfg.label_width * mmPt) (cfg.label_height * mmPt) h1
  obtain rfl : w = sideWidthOf cfg :=
    sidebarSection_width o cfg row x y (cfg.label_width * mmPt)
      (cfg.label_height * mmPt) w sc hs rfl
  have hcsec : codeSection o cfg row x y (cfg.label_height * mmPt)
      (sideWidthOf cfg) (cfg.padding * mmPt) =
      some (x + sideWidthOf cfg + cfg.qr_left_offset * mmPt +
          cfg.qr_size * mmPt + 2 * mmPt,
        [DrawCmd.qrSymbol
          (x + sideWidthOf cfg + cfg.qr_left_offset * mmPt)
          (y + (cfg.label_height * mmPt - cfg.qr_size * mmPt) / 2) val
          (cfg.qr_size * mmPt)
          (cfg.qr_size * mmPt /
            max ((o.qrBounds val).x1 - (o.qrBounds val).x0)
              ((o.qrBounds val).y1 - (o.qrBounds val).y0))]) := by
    unfold codeSection
    rw [hcc]
    dsimp only
    rw [if_pos (show cfg.code_type ≠ "None" by rw [hqr]; decide), hval]
    dsimp only
    rw [if_pos hqr]
  obtain ⟨rows, ht⟩ := textRows_exists o cfg row
    ((x + sideWidthOf cfg + cfg.qr_left_offset * mmPt +
        cfg.qr_size * mmPt + 2 * mmPt) + cfg.text_left_offset * mmPt)
    (cfg.label_width * mmPt -
      ((x + sideWidthOf cfg + cfg.qr_left_offset * mmPt +
          cfg.qr_size * mmPt + 2 * mmPt) + cfg.text_left_offset * mmPt - x) -
      cfg.padding * mmPt) (textYStartOf cfg y) (rowHeightOf cfg) h3
  have hdraw := draw_eq_sections o row x y cfg (sideWidthOf cfg)
    (x + sideWidthOf cfg + cfg.qr_left_offset * mmPt +
      cfg.qr_size * mmPt + 2 * mmPt) sc
    [DrawCmd.qrSymbol (x + sideWidthOf cfg + cfg.qr_left_offset * mmPt)
      (y + (cfg.label_height * mmPt - cfg.qr_size * mmPt) / 2) val
      (cfg.qr_size * mmPt)
      (cfg.qr_size * mmPt /
        max ((o.qrBounds val).x1 - (o.qrBounds val).x0)
          ((o.qrBounds val).y1 - (o.qrBounds val).y0))] rows hs hcsec ht
  constructor
  · rw [hdraw]
    simp only [Option.map_some']
    rw [List.filter_append, List.filter_append, List.filter_append,
      borderCmds_filter_code,
      sidebarSection_filter_code o cfg row x y (cfg.label_width * mmPt)
        (cfg.label_height * mmPt) (sideWidthOf cfg) sc hs,
      textRows_filter_code o cfg row _ _ (textYStartOf cfg y)
        (rowHeightOf cfg) cfg.visible_columns 0 rows ht]
    simp [isCodeCmd]
  · exact div_mul_cancel₀ _ (ne_of_gt hmax)

/-- Used by C8's witness: `cfgW` with a QR code on the `ID` column. -/
def cfgQ : LabelConfig :=
  { cfgW with
    code_type := "QR"
    code_column := some "ID" }

theorem C8_witness :
    ((draw_label_on_canvas oW rowW 0 0 cfgQ).map fun cmds =>
        cmds.filter isCodeCmd) =
      some [DrawCmd.qrSymbol
        (0 + sideWidthOf cfgQ + cfgQ.qr_left_offset * mmPt)
        (0 + (cfgQ.label_height * mmPt - cfgQ.qr_size * mmPt) / 2) "P001"
        (cfgQ.qr_size * mmPt)
        (cfgQ.qr_size * mmPt /
          max ((oW.qrBounds "P001").x1 - (oW.qrBounds "P001").x0)
            ((oW.qrBounds "P001").y1 - (oW.qrBounds "P001").y0))] ∧
    (cfgQ.qr_size * mmPt /
        max ((oW.qrBounds "P001").x1 - (oW.qrBounds "P001").x0)
          ((oW.qrBounds "P001").y1 - (oW.qrBounds "P001").y0)) *
      max ((oW.qrBounds "P001").x1 - (oW.qrBounds "P001").x0)
        ((oW.qrBounds "P001").y1 - (oW.qrBounds "P001").y0) =
      cfgQ.qr_size * mmPt :=
  C8_qr_scaling oW rowW 0 0 cfgQ "ID" "P001" (by decide) (by decide)
    (by decide) (by decide) (by norm_num [oW])

/-- Changing only `code_type` does not affect the side strip. -/
theorem sidebarSection_code_type (o : Oracles) (cfg : LabelConfig)
    (row : Record) (x y lw_pt lh_pt : ℚ) (s : String) :
    sidebarSection o { cfg with code_type := s } row x y lw_pt lh_pt =
      sidebarSection o cfg row x y lw_pt lh_pt := rfl

/-- Changing only `code_type` does not affect one text row's commands. -/
theorem rowCommands_code_type (o : Oracles) (cfg : LabelConfig)
    (val col_name : String) (tx aw ypos : ℚ) (s : String) :
    rowCommands o { cfg with code_type := s } val col_name tx aw ypos =
      rowCommands o cfg val col_name tx aw ypos := rfl

/-- Changing only `code_type` does not affect the text rows. -/
theorem textRows_code_type (o : Oracles) (cfg : LabelConfig) (row : Record)
    (tx aw ys rh : ℚ) (s : String) :
    ∀ (cols : List String) (idx : ℕ),
      textRows o { cfg with code_type := s } row tx aw ys rh idx cols =
        textRows o cfg row tx aw ys rh idx cols := by
  intro cols
  induction cols with
  | nil => intro idx; rfl
  | cons c cs ih =>
    intro idx
    simp only [textRows, rowCommands_code_type, ih]

/-- C6 (amended): with `codeType = QR` and `qrSize = 0` the symbol is not
skipped — the QR branch still runs, emitting a degenerate zero-size,
zero-scale symbol command at `x = sideStripWidth + qrLeftOffset`, and the
text start becomes `sideStripWidth + qrLeftOffset + 2 mm` rather than the
`sideStripWidth + padding` of the `"None"` case.  When
`qrLeftOffset + 2 mm` equals `padding` (as with the defaults 2 and 4), the
non-code commands coincide exactly with the `codeType = "None"` output;
the full sequences still differ by the extra zero-size symbol. -/
theorem C6_qr_zero (o : Oracles) (row : Record) (x y : ℚ)
    (cfg : LabelConfig) (cc val : String)
    (hcc : cfg.code_column = some cc) (hqr : cfg.code_type = "QR")
    (hsz : cfg.qr_size = 0) (hval : row.lookup cc = some val)
    (hoff : cfg.qr_left_offset * mmPt + 2 * mmPt = cfg.padding * mmPt) :
    ((draw_label_on_canvas o row x y cfg).map fun cmds =>
        cmds.filter fun c => ! isCodeCmd c) =
      draw_label_on_canvas o row x y { cfg with code_type := "None" } ∧
    ((draw_label_on_canvas o row x y cfg).map fun cmds =>
        cmds.filter isCodeCmd) =
      (draw_label_on_canvas o row x y cfg).map fun _ =>
        [DrawCmd.qrSymbol (x + sideWidthOf cfg + cfg.qr_left_offset * mmPt)
          (y + cfg.label_height * mmPt / 2) val 0 0] := by
  have hcready : codeReadyB cfg row = true := by
    rw [codeReadyB, hcc]
    dsimp only
    rw [if_pos (show cfg.code_type ≠ "None" by rw [hqr]; decide), hval]
    rfl
  have hcreadyN : codeReadyB { cfg with code_type := "None" } row = true := by
    rw [codeReadyB,
      show ({ cfg with code_type := "None" } : LabelConfig).code_column =
        some cc from hcc]
    dsimp only
    rw [if_neg (fun hcon => hcon rfl)]
  have hfr : fieldsReadyB cfg row =
      (sidebarReadyB cfg row && rowsReadyB cfg row) := by
    rw [fieldsReadyB, hcready]
    cases sidebarReadyB cfg row <;> cases rowsReadyB cfg row <;> rfl
  have hfrN : fieldsReadyB { cfg with code_type := "None" } row =
      (sidebarReadyB cfg row && rowsReadyB cfg row) := by
    rw [fieldsReadyB, hcreadyN,
      show sidebarReadyB { cfg with code_type := "None" } row =
        sidebarReadyB cfg row from rfl,
      show rowsReadyB { cfg with code_type := "None" } row =
        rowsReadyB cfg row from rfl]
    cases sidebarReadyB cfg row <;> cases rowsReadyB cfg row <;> rfl
  by_cases hok : (sidebarReadyB cfg row && rowsReadyB cfg row) = true
  case neg =>
    have h1 : draw_label_on_canvas o row x y cfg = none := by
      cases hd : draw_label_on_canvas o row x y cfg with
      | none => rfl
      | some v =>
        have hi := draw_isSome o row x y cfg
        rw [hd, hfr] at hi
        simp only [Option.isSome_some] at hi
        exact absurd hi.symm hok
    have h2 : draw_label_on_canvas o row x y
        { cfg with code_type := "None" } = none := by
      cases hd : draw_label_on_canvas o row x y
          { cfg with code_type := "None" } with
      | none => rfl
      | some v =>
        have hi := draw_isSome o row x y { cfg with code_type := "None" }
        rw [hd, hfrN] at hi
        simp only [Option.isSome_some] at hi
        exact absurd hi.symm hok
    rw [h1, h2]
    exact ⟨rfl, rfl⟩
  case pos =>
    rw [Bool.and_eq_true] at hok
    obtain ⟨hsr, hrr⟩ := hok
    obtain ⟨w, sc, hs⟩ := sidebarSection_exists o cfg row x y
      (cfg.label_width * mmPt) (cfg.label_height * mmPt) hsr
    obtain rfl : w = sideWidthOf cfg :=
      sidebarSection_width o cfg row x y (cfg.label_width * mmPt)
        (cfg.label_height * mmPt) w sc hs rfl
    have hc1 : codeSection o cfg row x y (cfg.label_height * mmPt)
        (sideWidthOf cfg) (cfg.padding * mmPt) =
        some (x + sideWidthOf cfg + cfg.padding * mmPt,
          [DrawCmd.qrSymbol
            (x + sideWidthOf cfg + cfg.qr_left_offset * mmPt)
            (y + cfg.label_height * mmPt / 2) val 0 0]) := by
      unfold codeSection
      rw [hcc]
      dsimp only
      rw [if_pos (show cfg.code_type ≠ "None" by rw [hqr]; decide), hval]
      dsimp only
      rw [if_pos hqr, hsz]
      refine congrArg some (congrArg₂ Prod.mk ?_ ?_)
      · linear_combination hoff
      · norm_num
    have hc2 : codeSection o { cfg with code_type := "None" } row x y
        (cfg.label_height * mmPt) (sideWidthOf cfg) (cfg.padding * mmPt) =
        some (x + sideWidthOf cfg + cfg.padding * mmPt, []) := by
      unfold codeSection
      rw [show ({ cfg with code_type := "None" } : LabelConfig).code_column =
        some cc from hcc]
      dsimp only
      rw [if_neg (fun hcon => hcon rfl)]
    obtain ⟨rows, ht⟩ := textRows_exists o cfg row
      (x + sideWidthOf cfg + cfg.padding * mmPt +
        cfg.text_left_offset * mmPt)
      (cfg.label_width * mmPt -
        (x + sideWidthOf cfg + cfg.padding * mmPt +
          cfg.text_left_offset * mmPt - x) - cfg.padding * mmPt)
      (textYStartOf cfg y) (rowHeightOf cfg) hrr
    have hdraw1 := draw_eq_sections o row x y cfg (sideWidthOf cfg)
      (x + sideWidthOf cfg + cfg.padding * mmPt) sc
      [DrawCmd.qrSymbol (x + sideWidthOf cfg + cfg.qr_left_offset * mmPt)
        (y + cfg.label_height * mmPt / 2) val 0 0] rows hs hc1 ht
    have hsN : sidebarSection o { cfg with code_type := "None" } row x y
        (cfg.label_width * mmPt) (cfg.label_height * mmPt) =
        some (sideWidthOf cfg, sc) := by
      rw [sidebarSection_code_type]
      exact hs
    have htN : textRows o { cfg with code_type := "None" } row
        (x + sideWidthOf cfg + cfg.padding * mmPt +
          cfg.text_left_offset * mmPt)
        (cfg.label_width * mmPt -
          (x + sideWidthOf cfg + cfg.padding * mmPt +
            cfg.text_left_offset * mmPt - x) - cfg.padding * mmPt)
        (textYStartOf cfg y) (rowHeightOf cfg) 0 cfg.visible_columns =
        some rows := by
      rw [textRows_code_type]
      exact ht
    have hdraw2 := draw_eq_sections o row x y
      { cfg with code_type := "None" } (sideWidthOf cfg)
      (x + sideWidthOf cfg + cfg.padding * mmPt) sc [] rows hsN hc2 htN
    constructor
    · rw [hdraw1, hdraw2]
      simp only [Option.map_some']
      rw [List.filter_append, List.filter_append, List.filter_append,
        filter_not_of_filter_nil (borderCmds_filter_code cfg x y),
        filter_not_of_filter_nil
          (sidebarSection_filter_code o cfg row x y (cfg.label_width * mmPt)
            (cfg.label_height * mmPt) (sideWidthOf cfg) sc hs),
        filter_not_of_filter_nil
          (textRows_filter_code o cfg row
            (x + sideWidthOf cfg + cfg.padding * mmPt +
              cfg.text_left_offset * mmPt)
            (cfg.label_width * mmPt -
              (x + sideWidthOf cfg + cfg.padding * mmPt +
                cfg.text_left_offset * mmPt - x) - cfg.padding * mmPt)
            (textYStartOf cfg y) (rowHeightOf cfg) cfg.visible_columns 0
            rows ht)]
      rfl
    · rw [hdraw1]
      simp only [Option.map_some']
      rw [List.filter_append, List.filter_append, List.filter_append,
        borderCmds_filter_code,
        sidebarSection_filter_code o cfg row x y (cfg.label_width * mmPt)
          (cfg.label_height * mmPt) (sideWidthOf cfg) sc hs,
        textRows_filter_code o cfg row
          (x + sideWidthOf cfg + cfg.padding * mmPt +
            cfg.text_left_offset * mmPt)
          (cfg.label_width * mmPt -
            (x + sideWidthOf cfg + cfg.padding * mmPt +
              cfg.text_left_offset * mmPt - x) - cfg.padding * mmPt)
          (textYStartOf cfg y) (rowHeightOf cfg) cfg.visible_columns 0
          rows ht]
      simp [isCodeCmd]

/-- Used by C6's counterexample: a zero-size QR on the `ID` column with
zero code left offset (so the QR-case text start, `0 + 2 mm`, differs
from the None-case `padding = 4 mm`). -/
def cfgQ0 : LabelConfig :=
  { cfgW with
    code_type := "QR"
    code_column := some "ID"
    qr_size := 0
    qr_left_offset := 0 }

/-- C6 counterexample: with `qrSize = 0`, the layout still emits one
(degenerate, zero-size) QR symbol command — at `(0, 6300/127)`, vertically
centered — while the same config with `codeType = "None"` emits no code
command at all; hence the two draw-command sequences are not equal,
contradicting the claimed equivalence. -/
theorem C6_cex :
    ((draw_label_on_canvas oW rowW 0 0 cfgQ0).map fun cmds =>
        cmds.filter isCodeCmd) =
      some [DrawCmd.qrSymbol 0 (6300 / 127) "P001" 0 0] ∧
    ((draw_label_on_canvas oW rowW 0 0
        { cfgQ0 with code_type := "None" }).map fun cmds =>
        cmds.filter isCodeCmd) = some [] ∧
    draw_label_on_canvas oW rowW 0 0 cfgQ0 ≠
      draw_label_on_canvas oW rowW 0 0 { cfgQ0 with code_type := "None" } := by
  have hsA : sidebarSection oW cfgQ0 rowW 0 0 (cfgQ0.label_width * mmPt)
      (cfgQ0.label_height * mmPt) = some (0, []) := rfl
  have hc1 : codeSection oW cfgQ0 rowW 0 0 (cfgQ0.label_height * mmPt) 0
      (cfgQ0.padding * mmPt) =
      some (0 + 0 + cfgQ0.qr_left_offset * mmPt + cfgQ0.qr_size * mmPt +
          2 * mmPt,
        [DrawCmd.qrSymbol (0 + 0 + cfgQ0.qr_left_offset * mmPt)
          (0 + (cfgQ0.label_height * mmPt - cfgQ0.qr_size * mmPt) / 2)
          "P001" (cfgQ0.qr_size * mmPt)
          (cfgQ0.qr_size * mmPt /
            max ((oW.qrBounds "P001").x1 - (oW.qrBounds "P001").x0)
              ((oW.qrBounds "P001").y1 - (oW.qrBounds "P001").y0))]) := rfl
  obtain ⟨rowsA, htA⟩ := textRows_exists oW cfgQ0 rowW
    (0 + 0 + cfgQ0.qr_left_offset * mmPt + cfgQ0.qr_size * mmPt + 2 * mmPt +
      cfgQ0.text_left_offset * mmPt)
    (cfgQ0.label_width * mmPt -
      (0 + 0 + cfgQ0.qr_left_offset * mmPt + cfgQ0.qr_size * mmPt +
        2 * mmPt + cfgQ0.text_left_offset * mmPt - 0) -
      cfgQ0.padding * mmPt)
    (textYStartOf cfgQ0 0) (rowHeightOf cfgQ0) (by decide)
  have hdrawA := draw_eq_sections oW rowW 0 0 cfgQ0 0
    (0 + 0 + cfgQ0.qr_left_offset * mmPt + cfgQ0.qr_size * mmPt + 2 * mmPt)
    []
    [DrawCmd.qrSymbol (0 + 0 + cfgQ0.qr_left_offset * mmPt)
      (0 + (cfgQ0.label_height * mmPt - cfgQ0.qr_size * mmPt) / 2) "P001"
      (cfgQ0.qr_size * mmPt)
      (cfgQ0.qr_size * mmPt /
        max ((oW.qrBounds "P001").x1 - (oW.qrBounds "P001").x0)
          ((oW.qrBounds "P001").y1 - (oW.qrBounds "P001").y0))]
    rowsA hsA hc1 htA
  have hsB : sidebarSection oW { cfgQ0 with code_type := "None" } rowW 0 0
      (({ cfgQ0 with code_type := "None" } : LabelConfig).label_width * mmPt)
      (({ cfgQ0 with code_type := "None" } : LabelConfig).label_height *
        mmPt) = some (0, []) := rfl
  have hc2 : codeSection oW { cfgQ0 with code_type := "None" } rowW 0 0
      (cfgQ0.label_height * mmPt) 0 (cfgQ0.padding * mmPt) =
      some (0 + 0 + cfgQ0.padding * mmPt, []) := rfl
  obtain ⟨rowsB, htB⟩ := textRows_exists oW
    { cfgQ0 with code_type := "None" } rowW
    (0 + 0 + cfgQ0.padding * mmPt +
      ({ cfgQ0 with code_type := "None" } : LabelConfig).text_left_offset *
        mmPt)
    (({ cfgQ0 with code_type := "None" } : LabelConfig).label_width * mmPt -
      (0 + 0 + cfgQ0.padding * mmPt +
        ({ cfgQ0 with code_type := "None" } : LabelConfig).text_left_offset *
          mmPt - 0) -
      ({ cfgQ0 with code_type := "None" } : LabelConfig).padding * mmPt)
    (textYStartOf { cfgQ0 with code_type := "None" } 0)
    (rowHeightOf { cfgQ0 with code_type := "None" }) (by decide)
  have hdrawB := draw_eq_sections oW rowW 0 0
    { cfgQ0 with code_type := "None" } 0 (0 + 0 + cfgQ0.padding * mmPt) []
    [] rowsB hsB hc2 htB
  have hA : ((draw_label_on_canvas oW rowW 0 0 cfgQ0).map fun cmds =>
      cmds.filter isCodeCmd) =
      some [DrawCmd.qrSymbol 0 (6300 / 127) "P001" 0 0] := by
    rw [hdrawA]
    simp only [Option.map_some']
    rw [List.filter_append, List.filter_append, List.filter_append,
      borderCmds_filter_code,
      textRows_filter_code oW cfgQ0 rowW
        (0 + 0 + cfgQ0.qr_left_offset * mmPt + cfgQ0.qr_size * mmPt +
          2 * mmPt + cfgQ0.text_left_offset * mmPt)
        (cfgQ0.label_width * mmPt -
          (0 + 0 + cfgQ0.qr_left_offset * mmPt + cfgQ0.qr_size * mmPt +
            2 * mmPt + cfgQ0.text_left_offset * mmPt - 0) -
          cfgQ0.padding * mmPt)
        (textYStartOf cfgQ0 0) (rowHeightOf cfgQ0) cfgQ0.visible_columns 0
        rowsA htA]
    norm_num [isCodeCmd, cfgQ0, cfgW, mmPt, oW]
  have hB : ((draw_label_on_canvas oW rowW 0 0
      { cfgQ0 with code_type := "None" }).map fun cmds =>
      cmds.filter isCodeCmd) = some [] := by
    rw [hdrawB]
    simp only [Option.map_some']
    rw [List.filter_append, List.filter_append, List.filter_append,
      borderCmds_filter_code,
      textRows_filter_code oW { cfgQ0 with code_type := "None" } rowW
        (0 + 0 + cfgQ0.padding * mmPt +
          ({ cfgQ0 with code_type := "None" } :
            LabelConfig).text_left_offset * mmPt)
        (({ cfgQ0 with code_type := "None" } : LabelConfig).label_width *
          mmPt -
          (0 + 0 + cfgQ0.padding * mmPt +
            ({ cfgQ0 with code_type := "None" } :
              LabelConfig).text_left_offset * mmPt - 0) -
          ({ cfgQ0 with code_type := "None" } : LabelConfig).padding * mmPt)
        (textYStartOf { cfgQ0 with code_type := "None" } 0)
        (rowHeightOf { cfgQ0 with code_type := "None" })
        ({ cfgQ0 with code_type := "None" } : LabelConfig).visible_columns 0
        rowsB htB]
    simp
  refine ⟨hA, hB, fun heq => ?_⟩
  rw [heq] at hA
  rw [hA] at hB
  simp at hB

/-- Used by C6's witness: a zero-size QR with the default 2 mm code left
offset, for which `qrLeftOffset + 2 mm = padding = 4 mm`. -/
def cfgQz : LabelConfig :=
  { cfgW with
    code_type := "QR"
    code_column := some "ID"
    qr_size := 0 }

theorem C6_witness :
    ((draw_label_on_canvas oW rowW 0 0 cfgQz).map fun cmds =>
        cmds.filter fun c => ! isCodeCmd c) =
      draw_label_on_canvas oW rowW 0 0 { cfgQz with code_type := "None" } ∧
    ((draw_label_on_canvas oW rowW 0 0 cfgQz).map fun cmds =>
        cmds.filter isCodeCmd) =
      (draw_label_on_canvas oW rowW 0 0 cfgQz).map fun _ =>
        [DrawCmd.qrSymbol
          (0 + sideWidthOf cfgQz + cfgQz.qr_left_offset * mmPt)
          (0 + cfgQz.label_height * mmPt / 2) "P001" 0 0] :=
  C6_qr_zero oW rowW 0 0 cfgQz "ID" "P001" rfl rfl rfl (by decide)
    (by norm_num [cfgQz, cfgW, mmPt])

/-- The packer never fails when every record supplies its referenced
fields. -/
theorem generate_isSome (o : Oracles) (df : List Record) (cfg : LabelConfig)
    (pf : String) (rc : ℕ)
    (h : ∀ r ∈ df, fieldsReadyB { cfg with padding := 4 } r = true) :
    ∃ ps, generate_sheet_direct o df cfg pf rc = some ps := by
  obtain ⟨ps, s', hp⟩ := packRecords_exists o { cfg with padding := 4 }
    (cfg.label_width * mmPt) (cfg.label_height * mmPt)
    (pageDims pf cfg.label_width cfg.label_height).1
    (pageDims pf cfg.label_width cfg.label_height).2.1
    (pageDims pf cfg.label_width cfg.label_height).2.2 rc df h
    { page := 0,
      x := (pageDims pf cfg.label_width cfg.label_height).2.2,
      y := (pageDims pf cfg.label_width cfg.label_height).2.1 -
        cfg.label_height * mmPt -
        (pageDims pf cfg.label_width cfg.label_height).2.2 }
  exact ⟨ps, by simp only [generate_sheet_direct, hp]⟩

/-- Generic: a non-`none` option equals `some` of its `getD`. -/
theorem eq_some_getD {α : Type} {q : Option α} (h : ∃ v, q = some v)
    (d : α) : q = some (q.getD d) := by
  obtain ⟨v, hv⟩ := h
  rw [hv]
  rfl

/-- C2: with records `[A, B, C]`, `copiesPerRecord = 2`, a 70 × 35 mm
label and `LabelPrinter` (Exact) page mode — page size equal to the label
size, margin 0 — the packer emits exactly 6 placements, in the order
A, A, B, B, C, C (copies adjacent before the next record), each placement
on its own page (page indices 0–5) at origin (0, 0): the wraparound branch
fires after every single placement. -/
theorem C2_exact_mode (o : Oracles) (cfg : LabelConfig) (A B C : Record)
    (hw : cfg.label_width = 70) (hh : cfg.label_height = 35)
    (hA : fieldsReadyB { cfg with padding := 4 } A = true)
    (hB : fieldsReadyB { cfg with padding := 4 } B = true)
    (hC : fieldsReadyB { cfg with padding := 4 } C = true) :
    generate_sheet_direct o [A, B, C] cfg "LabelPrinter" 2 =
      some [
        { page := 0, x := 0, y := 0,
          cmds := (draw_label_on_canvas o A 0 0
            { cfg with padding := 4 }).getD [] },
        { page := 1, x := 0, y := 0,
          cmds := (draw_label_on_canvas o A 0 0
            { cfg with padding := 4 }).getD [] },
        { page := 2, x := 0, y := 0,
          cmds := (draw_label_on_canvas o B 0 0
            { cfg with padding := 4 }).getD [] },
        { page := 3, x := 0, y := 0,
          cmds := (draw_label_on_canvas o B 0 0
            { cfg with padding := 4 }).getD [] },
        { page := 4, x := 0, y := 0,
          cmds := (draw_label_on_canvas o C 0 0
            { cfg with padding := 4 }).getD [] },
        { page := 5, x := 0, y := 0,
          cmds := (draw_label_on_canvas o C 0 0
            { cfg with padding := 4 }).getD [] }] := by
  have hpd : pageDims "LabelPrinter" cfg.label_width cfg.label_height =
      (cfg.label_width * mmPt, cfg.label_height * mmPt, 0) := by
    unfold pageDims
    rw [if_neg (by decide : ¬("LabelPrinter" : String) = "A4"),
      if_neg (by decide : ¬("LabelPrinter" : String) = "Letter"),
      if_pos rfl]
  have hadv : ∀ p : ℕ, packAdvance (cfg.label_width * mmPt)
      (cfg.label_height * mmPt) (cfg.label_width * mmPt)
      (cfg.label_height * mmPt) 0 ⟨p, 0, 0⟩ = ⟨p + 1, 0, 0⟩ := by
    intro p
    rw [hw, hh]
    simp only [packAdvance]
    norm_num [mmPt, PackState.mk.injEq]
  have hiter : ∀ (i p : ℕ), (packAdvance (cfg.label_width * mmPt)
      (cfg.label_height * mmPt) (cfg.label_width * mmPt)
      (cfg.label_height * mmPt) 0)^[i] ⟨p, 0, 0⟩ = ⟨p + i, 0, 0⟩ := by
    intro i
    induction i with
    | zero => intro p; rfl
    | succ n ih =>
      intro p
      rw [Function.iterate_succ_apply', ih p, hadv, Nat.add_assoc]
  have hready : ∀ r ∈ [A, B, C],
      fieldsReadyB { cfg with padding := 4 } r = true := by
    intro r hr
    simp only [List.mem_cons, List.not_mem_nil, or_false] at hr
    rcases hr with rfl | rfl | rfl
    exacts [hA, hB, hC]
  obtain ⟨ps, s', hpack⟩ := packRecords_exists o { cfg with padding := 4 }
    (cfg.label_width * mmPt) (cfg.label_height * mmPt)
    (cfg.label_width * mmPt) (cfg.label_height * mmPt) 0 2 [A, B, C] hready
    ⟨0, 0, 0⟩
  obtain ⟨hps, -⟩ := packRecords_states o { cfg with padding := 4 }
    (cfg.label_width * mmPt) (cfg.label_height * mmPt)
    (cfg.label_width * mmPt) (cfg.label_height * mmPt) 0 2 [A, B, C]
    ⟨0, 0, 0⟩ ps s' hpack
  subst hps
  simp only [generate_sheet_direct, hpd]
  rw [show cfg.label_height * mmPt - cfg.label_height * mmPt - 0 = 0 from
    by ring]
  rw [hpack]
  dsimp only
  simp only [expectedPack, show (List.range 2) = [0, 1] from rfl,
    List.map_cons, List.map_nil, hiter, mkPlacement]
  norm_num

/-- One concrete record per packer-witness label. -/
def rowA : Record := [("ID", "A1"), ("Species", "SpA")]

/-- Second concrete packer-witness record. -/
def rowB : Record := [("ID", "B2"), ("Species", "SpB")]

/-- Third concrete packer-witness record. -/
def rowC : Record := [("ID", "C3"), ("Species", "SpC")]

theorem C2_witness :
    generate_sheet_direct oW [rowA, rowB, rowC] cfgW "LabelPrinter" 2 =
      some [
        { page := 0, x := 0, y := 0,
          cmds := (draw_label_on_canvas oW rowA 0 0
            { cfgW with padding := 4 }).getD [] },
        { page := 1, x := 0, y := 0,
          cmds := (draw_label_on_canvas oW rowA 0 0
            { cfgW with padding := 4 }).getD [] },
        { page := 2, x := 0, y := 0,
          cmds := (draw_label_on_canvas oW rowB 0 0
            { cfgW with padding := 4 }).getD [] },
        { page := 3, x := 0, y := 0,
          cmds := (draw_label_on_canvas oW rowB 0 0
            { cfgW with padding := 4 }).getD [] },
        { page := 4, x := 0, y := 0,
          cmds := (draw_label_on_canvas oW rowC 0 0
            { cfgW with padding := 4 }).getD [] },
        { page := 5, x := 0, y := 0,
          cmds := (draw_label_on_canvas oW rowC 0 0
            { cfgW with padding := 4 }).getD [] }] :=
  C2_exact_mode oW cfgW rowA rowB rowC rfl rfl (by decide) (by decide)
    (by decide)

/-- C3: in every page mode, the packer maintains a cursor that starts at
`(margin, pageHeight − labelHeight − margin)` on page 0, and placement `i`
sits exactly at the `i`-th iterate of the spec's advance rule
(`advanceSpec`): advance `x` by `labelWidth + margin` after each
placement; when `x + labelWidth > pageWidth` (strict) reset `x = margin`
and drop `y` by `labelHeight + margin`; when `y` then falls below
`margin`, break the page and reset the cursor — both checks happening
between consecutive placements. -/
theorem C3_cursor_recurrence (o : Oracles) (df : List Record)
    (cfg : LabelConfig) (pf : String) (rc : ℕ) (ps : List Placement)
    (pw ph m : ℚ)
    (hpd : pageDims pf cfg.label_width cfg.label_height = (pw, ph, m))
    (h : generate_sheet_direct o df cfg pf rc = some ps) :
    ps.map placePos = (List.range ps.length).map fun i =>
      statePos ((advanceSpec (cfg.label_width * mmPt)
        (cfg.label_height * mmPt) pw ph m)^[i]
        { page := 0, x := m, y := ph - cfg.label_height * mmPt - m }) := by
  rw [advanceSpec_eq_packAdvance]
  simp only [generate_sheet_direct, hpd] at h
  cases hp : packRecords o { cfg with padding := 4 }
      (cfg.label_width * mmPt) (cfg.label_height * mmPt) pw ph m rc df
      { page := 0, x := m, y := ph - cfg.label_height * mmPt - m } with
  | none => rw [hp] at h; exact absurd h (by simp)
  | some pr =>
    obtain ⟨ps₀, s'⟩ := pr
    rw [hp] at h
    dsimp only at h
    simp only [Option.some.injEq] at h
    subst h
    obtain ⟨hps, -⟩ := packRecords_states o { cfg with padding := 4 }
      (cfg.label_width * mmPt) (cfg.label_height * mmPt) pw ph m rc df
      { page := 0, x := m, y := ph - cfg.label_height * mmPt - m } ps₀ s' hp
    subst hps
    rw [expectedPack_map_pos]
    have hlen := congrArg List.length (expectedPack_map_pos o
      { cfg with padding := 4 }
      (packAdvance (cfg.label_width * mmPt) (cfg.label_height * mmPt)
        pw ph m) rc df
      { page := 0, x := m, y := ph - cfg.label_height * mmPt - m })
    simp only [List.length_map, List.length_range] at hlen
    rw [hlen]

/-- The concrete placement list of C3's witness run. -/
def psW3 : List Placement :=
  (generate_sheet_direct oW [rowW] cfgW "LabelPrinter" 1).getD []

theorem C3_witness :
    psW3.map placePos = (List.range psW3.length).map fun i =>
      statePos ((advanceSpec (cfgW.label_width * mmPt)
        (cfgW.label_height * mmPt) (cfgW.label_width * mmPt)
        (cfgW.label_height * mmPt) 0)^[i]
        { page := 0, x := 0,
          y := cfgW.label_height * mmPt - cfgW.label_height * mmPt - 0 }) :=
  C3_cursor_recurrence oW [rowW] cfgW "LabelPrinter" 1 psW3
    (cfgW.label_width * mmPt) (cfgW.label_height * mmPt) 0 rfl
    (eq_some_getD (generate_isSome oW [rowW] cfgW "LabelPrinter" 1
      (by decide)) [])

/-- C9: with a nonnegative margin, nonnegative label dimensions, and the
label plus margins fitting on the page, every placement the packer emits
has its origin inside the page: `margin ≤ x`,
`x + labelWidth ≤ pageWidth`, `margin ≤ y`, and
`y + labelHeight ≤ pageHeight`, on every page. -/
theorem C9_placements_in_page (o : Oracles) (df : List Record)
    (cfg : LabelConfig) (pf : String) (rc : ℕ) (ps : List Placement)
    (pw ph m : ℚ)
    (hpd : pageDims pf cfg.label_width cfg.label_height = (pw, ph, m))
    (hm : 0 ≤ m) (hlw : 0 ≤ cfg.label_width * mmPt)
    (hlh : 0 ≤ cfg.label_height * mmPt)
    (hfw : cfg.label_width * mmPt + 2 * m ≤ pw)
    (hfh : cfg.label_height * mmPt + 2 * m ≤ ph)
    (h : generate_sheet_direct o df cfg pf rc = some ps) :
    ps.all (fun p => decide (m ≤ p.x ∧ p.x + cfg.label_width * mmPt ≤ pw ∧
      m ≤ p.y ∧ p.y + cfg.label_height * mmPt ≤ ph)) = true := by
  rw [List.all_eq_true]
  intro p hp
  rw [decide_eq_true_eq]
  simp only [generate_sheet_direct, hpd] at h
  cases hq : packRecords o { cfg with padding := 4 }
      (cfg.label_width * mmPt) (cfg.label_height * mmPt) pw ph m rc df
      { page := 0, x := m, y := ph - cfg.label_height * mmPt - m } with
  | none => rw [hq] at h; exact absurd h (by simp)
  | some pr =>
    obtain ⟨ps₀, s'⟩ := pr
    rw [hq] at h
    dsimp only at h
    simp only [Option.some.injEq] at h
    subst h
    obtain ⟨hps, -⟩ := packRecords_states o { cfg with padding := 4 }
      (cfg.label_width * mmPt) (cfg.label_height * mmPt) pw ph m rc df
      { page := 0, x := m, y := ph - cfg.label_height * mmPt - m } ps₀ s' hq
    subst hps
    have hmem := List.mem_map_of_mem placePos hp
    rw [expectedPack_map_pos] at hmem
    obtain ⟨i, -, hi⟩ := List.mem_map.mp hmem
    have hinv : ∀ j : ℕ,
        m ≤ ((packAdvance (cfg.label_width * mmPt)
          (cfg.label_height * mmPt) pw ph m)^[j]
          { page := 0, x := m, y := ph - cfg.label_height * mmPt - m }).x ∧
        ((packAdvance (cfg.label_width * mmPt)
          (cfg.label_height * mmPt) pw ph m)^[j]
          { page := 0, x := m, y := ph - cfg.label_height * mmPt - m }).x +
          cfg.label_width * mmPt ≤ pw ∧
        m ≤ ((packAdvance (cfg.label_width * mmPt)
          (cfg.label_height * mmPt) pw ph m)^[j]
          { page := 0, x := m, y := ph - cfg.label_height * mmPt - m }).y ∧
        ((packAdvance (cfg.label_width * mmPt)
          (cfg.label_height * mmPt) pw ph m)^[j]
          { page := 0, x := m, y := ph - cfg.label_height * mmPt - m }).y +
          cfg.label_height * mmPt ≤ ph := by
      intro j
      induction j with
      | zero =>
        simp only [Function.iterate_zero_apply]
        refine ⟨le_refl m, by linarith, by linarith, by linarith⟩
      | succ n ih =>
        rw [Function.iterate_succ_apply']
        exact packAdvance_inv (cfg.label_width * mmPt)
          (cfg.label_height * mmPt) pw ph m hm hlw hlh hfw hfh _ ih
    have e := hi
    simp only [statePos, placePos, Prod.mk.injEq] at e
    obtain ⟨-, ex, ey⟩ := e
    rw [← ex, ← ey]
    exact hinv i

/-- The concrete placement list of C9's witness run (A4 sheet mode). -/
def psW9 : List Placement :=
  (generate_sheet_direct oW [rowW] cfgW "A4" 1).getD []

theorem C9_witness :
    psW9.all (fun p => decide ((5 : ℚ) * mmPt ≤ p.x ∧
      p.x + cfgW.label_width * mmPt ≤ 210 * mmPt ∧
      (5 : ℚ) * mmPt ≤ p.y ∧
      p.y + cfgW.label_height * mmPt ≤ 297 * mmPt)) = true :=
  C9_placements_in_page oW [rowW] cfgW "A4" 1 psW9 (210 * mmPt)
    (297 * mmPt) (5 * mmPt) rfl (by norm_num [mmPt])
    (by norm_num [cfgW, mmPt]) (by norm_num [cfgW, mmPt])
    (by norm_num [cfgW, mmPt]) (by norm_num [cfgW, mmPt])
    (eq_some_getD (generate_isSome oW [rowW] cfgW "A4" 1 (by decide)) [])

end PlantID
